import Mathlib

/-!
Verification development for the OpenDAP ASCII parsing / caching core of
coastviewer-graphs (src/stores/app.js and its revisions).

Modelling conventions:
* text is `List Char` (abbreviated `Str`); JavaScript strings are ASCII here;
* JavaScript numbers are modelled as exact rationals `ℚ`;
* JavaScript `null` is `Option.none`;
* regular-expression matching is embedded as explicit scanners that follow
  the backtracking semantics of the concrete patterns used by the source;
* scanners use a fuel argument for structural termination; callers pass
  `length + 1`, which over-approximates the recursion depth (every recursive
  step consumes at least one character).
-/

namespace CoastViewer

abbrev Str := List Char

/-- JS regex `\s` character class (the ASCII part plus NBSP; inputs are ASCII). -/
def isJsSpace (c : Char) : Bool :=
  c = ' ' || c = '\t' || c = '\n' || c = Char.ofNat 11 || c = Char.ofNat 12 ||
  c = '\r' || c = Char.ofNat 160

/-- JS regex `\w` character class: `[A-Za-z0-9_]`. -/
def isWordChar (c : Char) : Bool :=
  ('a' ≤ c && c ≤ 'z') || ('A' ≤ c && c ≤ 'Z') || c.isDigit || c = '_'

/-- `asciiRaw.replace(/\r\n/g, '\n')` — normalize CRLF line endings. -/
def normalizeCrlf : Str → Str
  | '\r' :: '\n' :: t => '\n' :: normalizeCrlf t
  | c :: t => c :: normalizeCrlf t
  | [] => []

/-- Suffix of `l` beginning at its last newline, if `l` contains one.
    This is the backtracking of a trailing greedy `\s*` to the last
    position inside the whitespace run where `$` (before a newline) holds. -/
def dropBeforeLastNl : Str → Option Str
  | [] => none
  | c :: t =>
    match dropBeforeLastNl t with
    | some s => some s
    | none => if c = '\n' then some (c :: t) else none

/-- Shared tail of the separator and header patterns: a greedy `\s*`
    followed by `$` (multiline). Returns the text remaining after the match:
    all of it is consumed when the whitespace run reaches the end of the
    string, otherwise the match ends just before the last newline of the run. -/
def consumeTrailingToEol (after : Str) : Option Str :=
  let sp := after.takeWhile isJsSpace
  let r2 := after.dropWhile isJsSpace
  if r2.isEmpty then some []
  else
    match dropBeforeLastNl sp with
    | some suff => some (suff ++ r2)
    | none => none

/-- One anchored attempt of `/^\s*-{5,}\s*$/m` (the dashed separator line of
    `capturePayloadBlock`). Character classes of adjacent greedy pieces are
    disjoint, so the leading `\s*` and the dash run need no backtracking.
    Returns the text after the match. -/
def matchSep (s : Str) : Option Str :=
  let r1 := s.dropWhile isJsSpace
  let ds := r1.takeWhile (fun c => c = '-')
  let r2 := r1.dropWhile (fun c => c = '-')
  if ds.length < 5 then none else consumeTrailingToEol r2

/-- Leftmost multiline search for the separator pattern: `^` holds at index 0
    and after each newline, and attempts run in position order. -/
def findSepAux : Nat → Str → Option Str
  | 0, _ => none
  | fuel + 1, s =>
    match matchSep s with
    | some rest => some rest
    | none =>
      match s.dropWhile (fun c => c ≠ '\n') with
      | [] => none
      | _ :: t => findSepAux fuel t

def findSep (s : Str) : Option Str := findSepAux (s.length + 1) s

/-- Indices of `]` inside one line, rightmost first: the backtracking order
    of the greedy `[^\n]*` in `\[[^\n]*\]`. -/
def closeIdxsDesc (line : Str) : List Nat :=
  ((List.range line.length).filter (fun i => line.getD i ' ' = ']')).reverse

/-- Matcher for `(?:\[[^\n]*\]\s*)+\s*$` at the start of `s` (which must
    start with `[`). Greedy preference: after a bracket group and its
    whitespace, a further group (the `+` repeating) is tried before ending
    the match at an end-of-line. Returns the text after the match. -/
def matchGroups : Nat → Str → Option Str
  | 0, _ => none
  | fuel + 1, s =>
    match s with
    | '[' :: r =>
      let line := r.takeWhile (fun c => c ≠ '\n')
      (closeIdxsDesc line).findSome? (fun i =>
        let after := r.drop (i + 1)
        let r2 := after.dropWhile isJsSpace
        match r2 with
        | '[' :: _ =>
          match matchGroups fuel r2 with
          | some rest => some rest
          | none => consumeTrailingToEol after
        | _ => consumeTrailingToEol after)
    | _ => none

/-- One `\w+\.` namespace segment (the inner `\w+` is maximal: shortening it
    would leave a word character where the dot is required). -/
def matchNsSeg (s : Str) : Option Str :=
  let w := s.takeWhile isWordChar
  let r := s.dropWhile isWordChar
  if w.isEmpty then none
  else
    match r with
    | '.' :: r' => some r'
    | _ => none

/-- Positions reachable by `(?:\w+\.)*`, in increasing segment count. -/
def nsChain : Nat → Str → List Str
  | 0, s => [s]
  | fuel + 1, s =>
    s :: (match matchNsSeg s with
          | some r => nsChain fuel r
          | none => [])

/-- After the variable name: `\s*(?:\[[^\n]*\]\s*)+\s*$`. -/
def matchAfterVar (fuel : Nat) (t : Str) : Option Str :=
  let t1 := t.dropWhile isJsSpace
  match t1 with
  | '[' :: _ => matchGroups fuel t1
  | _ => none

/-- One anchored attempt of the per-variable header pattern
    `^\s*(?:[\w]+\.)*V\s*(?:\[[^\n]*\]\s*)+\s*$` (multiline). The greedy
    `(?:\w+\.)*` tries the largest segment count first. Returns the text
    after the match. -/
def matchHeaderAt (fuel : Nat) (v : Str) (s : Str) : Option Str :=
  let s1 := s.dropWhile isJsSpace
  ((nsChain fuel s1).reverse).findSome? (fun c =>
    if v.isPrefixOf c then matchAfterVar fuel (c.drop v.length) else none)

/-- Leftmost multiline search for the variable header. -/
def findHeaderAux (v : Str) : Nat → Str → Option Str
  | 0, _ => none
  | fuel + 1, s =>
    match matchHeaderAt (s.length + 1) v s with
    | some rest => some rest
    | none =>
      match s.dropWhile (fun c => c ≠ '\n') with
      | [] => none
      | _ :: t => findHeaderAux v fuel t

/-- One anchored attempt of the generic next-header pattern
    `^\s*[\w.]+\s*(?:\[[^\n]*\]\s*)+\s*$` (multiline); only success matters
    because just the match index is used. -/
def matchNextHeaderAt (fuel : Nat) (s : Str) : Bool :=
  let s1 := s.dropWhile isJsSpace
  let w := s1.takeWhile (fun c => isWordChar c || c = '.')
  let s2 := s1.dropWhile (fun c => isWordChar c || c = '.')
  if w.isEmpty then false
  else
    let s3 := s2.dropWhile isJsSpace
    match s3 with
    | '[' :: _ => (matchGroups fuel s3).isSome
    | _ => false

/-- Index (in characters from the start of `tail`) of the first anchor at
    which the generic header pattern matches. -/
def findNextHeaderIdxAux : Nat → Str → Nat → Option Nat
  | 0, _, _ => none
  | fuel + 1, s, acc =>
    if matchNextHeaderAt (s.length + 1) s then some acc
    else
      let pre := s.takeWhile (fun c => c ≠ '\n')
      match s.dropWhile (fun c => c ≠ '\n') with
      | [] => none
      | _ :: t => findNextHeaderIdxAux fuel t (acc + pre.length + 1)

/-- Steps 2 and 3 of `capturePayloadBlock`, on the post-separator search
    base: find the variable's header line and return the payload up to the
    next header-shaped line or end of text. -/
def captureFromBase (searchBase : Str) (varName : Str) : Str :=
  match findHeaderAux varName (searchBase.length + 1) searchBase with
  | none => []
  | some tail =>
    match findNextHeaderIdxAux (tail.length + 1) tail 0 with
    | some e => tail.take e
    | none => tail

/-- `capturePayloadBlock(asciiRaw, varName)`: normalize line endings, skip
    the preamble up to the dashed separator (searching the whole text when
    none is found), then extract the variable's payload. -/
def capturePayloadBlock (asciiRaw : Str) (varName : Str) : Str :=
  if asciiRaw.isEmpty then []
  else
    let ascii := normalizeCrlf asciiRaw
    let searchBase :=
      match findSep ascii with
      | some rest => rest
      | none => ascii
    captureFromBase searchBase varName

/-- One `\[\d+\]` index group. -/
def idxGroup (s : Str) : Option Str :=
  match s with
  | '[' :: r =>
    let d := r.takeWhile Char.isDigit
    let r2 := r.dropWhile Char.isDigit
    if d.isEmpty then none
    else
      match r2 with
      | ']' :: r3 => some r3
      | _ => none
  | _ => none

/-- Consume up to `n` further index groups, greedily. -/
def idxGroupsMore : Nat → Str → Str
  | 0, s => s
  | n + 1, s =>
    match idxGroup s with
    | some r => idxGroupsMore n r
    | none => s

/-- One anchored attempt (after `^` or a consumed newline) of
    `\s*(?:\[\d+\]){1,4},\s*` from `stripOpendapIndices`. The `{1,4}` is
    greedy; if the comma does not follow the maximal group count the whole
    attempt fails (a shorter count always leaves `[`, not `,`). Returns the
    text after the match. -/
def matchIdxTagsAt (s : Str) : Option Str :=
  let s1 := s.dropWhile isJsSpace
  match idxGroup s1 with
  | none => none
  | some r1 =>
    let r := idxGroupsMore 3 r1
    match r with
    | ',' :: r2 => some (r2.dropWhile isJsSpace)
    | _ => none

def stripIdxAux : Nat → Str → Str
  | 0, _ => []
  | fuel + 1, s =>
    match s with
    | [] => []
    | '\n' :: t =>
      (match matchIdxTagsAt t with
       | some r => '\n' :: stripIdxAux fuel r
       | none => '\n' :: stripIdxAux fuel t)
    | c :: t => c :: stripIdxAux fuel t

/-- `stripOpendapIndices(block)`: `block.replace(/(^|\n)\s*(?:\[\d+\]){1,4},\s*/g, '$1')`.
    Without the `m` flag `^` only matches at index 0; every other match is
    anchored by a consumed (and re-emitted) newline. -/
def stripOpendapIndices (block : Str) : Str :=
  if block.isEmpty then []
  else
    match matchIdxTagsAt block with
    | some r => stripIdxAux (r.length + 1) r
    | none => stripIdxAux (block.length + 1) block

/-- Optional exponent part `(?:[eE][-+]?\d+)?`: if the digits are missing the
    whole exponent is dropped (internal backtracking cannot cross out of the
    group). Returns the matched characters and the rest. -/
def matchExp (r : Str) : Str × Str :=
  match r with
  | c :: t =>
    if c = 'e' || c = 'E' then
      let (es, t1) :=
        match t with
        | c2 :: t2 => if c2 = '-' || c2 = '+' then ([c2], t2) else (([] : Str), t)
        | [] => (([] : Str), t)
      let d := t1.takeWhile Char.isDigit
      let t2 := t1.dropWhile Char.isDigit
      if d.isEmpty then (([] : Str), r) else (c :: (es ++ d), t2)
    else (([] : Str), r)
  | [] => (([] : Str), r)

/-- The body alternation `(?:\d+\.\d+|\d+\.|\.\d+|\d+)` of the
    `tokenizeNumbers` pattern, resolved in source order; all greedy digit
    runs are maximal runs (no helpful backtracking exists). -/
def numBodyAlt (s1 : Str) : Option (Str × Str) :=
  let d1 := s1.takeWhile Char.isDigit
  let s2 := s1.dropWhile Char.isDigit
  if d1.isEmpty then
    match s2 with
    | '.' :: s3 =>
      let d2 := s3.takeWhile Char.isDigit
      let s4 := s3.dropWhile Char.isDigit
      if d2.isEmpty then none else some ('.' :: d2, s4)
    | _ => none
  else
    match s2 with
    | '.' :: s3 =>
      let d2 := s3.takeWhile Char.isDigit
      let s4 := s3.dropWhile Char.isDigit
      if d2.isEmpty then some (d1 ++ ['.'], s3) else some (d1 ++ '.' :: d2, s4)
    | _ => some (d1, s2)

/-- One attempt of `/[-+]?(?:\d+\.\d+|\d+\.|\.\d+|\d+)(?:[eE][-+]?\d+)?/`
    (the `tokenizeNumbers` pattern) at the start of `s`. A sign with no
    following body fails the whole position (backtracking to the unsigned
    reading leaves the sign character itself, which no body matches).
    Returns the token and the rest. -/
def matchNumToken (s : Str) : Option (Str × Str) :=
  let (sgn, s1) :=
    match s with
    | c :: t => if c = '-' || c = '+' then ([c], t) else (([] : Str), s)
    | [] => (([] : Str), s)
  match numBodyAlt s1 with
  | none => none
  | some (body, r) =>
    let (ex, r') := matchExp r
    some (sgn ++ body ++ ex, r')

/-- Global scan collecting successive matches of the number pattern
    (`String.prototype.match` with the `g` flag). -/
def numTokenStringsAux : Nat → Str → List Str
  | 0, _ => []
  | fuel + 1, s =>
    match matchNumToken s with
    | some (tok, rest) => tok :: numTokenStringsAux fuel rest
    | none =>
      match s with
      | [] => []
      | _ :: t => numTokenStringsAux fuel t

def numTokenStrings (s : Str) : List Str := numTokenStringsAux (s.length + 1) s

def natOfDigits (l : Str) : Nat :=
  l.foldl (fun acc c => acc * 10 + (c.toNat - Char.toNat '0')) 0

/-- The exact rational `±(ip + frac/10^flen) · 10^e`, built with `mkRat` so
    that it evaluates by plain integer arithmetic. -/
def ratOfParts (neg : Bool) (ip : Nat) (frac : Nat) (flen : Nat) (e : ℤ) : ℚ :=
  let base : Nat := ip * 10 ^ flen + frac
  let nn : Nat := if 0 ≤ e then base * 10 ^ e.toNat else base
  let dd : Nat := if 0 ≤ e then 10 ^ flen else 10 ^ flen * 10 ^ (-e).toNat
  mkRat (if neg then -(nn : ℤ) else (nn : ℤ)) dd

/-- `Number(token)` on a token produced by the numeric patterns, modelled as
    an exact rational. -/
def numOfToken (tok : Str) : ℚ :=
  let (neg, t) :=
    match tok with
    | '-' :: r => (true, r)
    | '+' :: r => (false, r)
    | _ => (false, tok)
  let ip := t.takeWhile Char.isDigit
  let t1 := t.dropWhile Char.isDigit
  let (frac, flen, t2) :=
    match t1 with
    | '.' :: r =>
      (natOfDigits (r.takeWhile Char.isDigit),
       (r.takeWhile Char.isDigit).length,
       r.dropWhile Char.isDigit)
    | _ => (0, 0, t1)
  let e : ℤ :=
    match t2 with
    | c :: r =>
      if c = 'e' || c = 'E' then
        match r with
        | '-' :: r2 => -(natOfDigits (r2.takeWhile Char.isDigit) : ℤ)
        | '+' :: r2 => (natOfDigits (r2.takeWhile Char.isDigit) : ℤ)
        | _ => (natOfDigits (r.takeWhile Char.isDigit) : ℤ)
      else 0
    | [] => 0
  ratOfParts neg (natOfDigits ip) frac flen e

/-- `tokenizeNumbers(block)`: numeric tokens of the block, in source reading
    order, as numbers. -/
def tokenizeNumbers (block : Str) : List ℚ :=
  if block.isEmpty then []
  else (numTokenStrings block).map numOfToken

/-- Case-insensitive test `/^nan$/i`. -/
def isNanLit (tok : Str) : Bool :=
  match tok with
  | [a, b, c] =>
    (a = 'n' || a = 'N') && (b = 'a' || b = 'A') && (c = 'n' || c = 'N')
  | _ => false

/-- The body alternation `(?:\d+\.\d+|\d+|\.\d+)` of `NUM_RE` (note:
    `\d+` is tried before `\.\d+`, and there is no `\d+\.` branch). -/
def numBodyAltNaN (s1 : Str) : Option (Str × Str) :=
  let d1 := s1.takeWhile Char.isDigit
  let s2 := s1.dropWhile Char.isDigit
  if d1.isEmpty then
    match s2 with
    | '.' :: s3 =>
      let d2 := s3.takeWhile Char.isDigit
      let s4 := s3.dropWhile Char.isDigit
      if d2.isEmpty then none else some ('.' :: d2, s4)
    | _ => none
  else
    match s2 with
    | '.' :: s3 =>
      let d2 := s3.takeWhile Char.isDigit
      let s4 := s3.dropWhile Char.isDigit
      if d2.isEmpty then some (d1, s2) else some (d1 ++ '.' :: d2, s4)
    | _ => some (d1, s2)

/-- One attempt of the `NUM_RE` pattern of `tokenizeNumbersKeepNaN`:
    `-?(?:\d+\.\d+|\d+|\.\d+)(?:[eE][+-]?\d+)?|NaN` with flags `gi`
    (so only `-` as a sign, and a literal `NaN` top-level alternative tried
    at the same start position when the numeric alternative fails). -/
def matchNumTokenKeepNaN (s : Str) : Option (Str × Str) :=
  let (sgn, s1) :=
    match s with
    | '-' :: t => (['-'], t)
    | _ => (([] : Str), s)
  match numBodyAltNaN s1 with
  | some (body, r) =>
    let (ex, r') := matchExp r
    some (sgn ++ body ++ ex, r')
  | none =>
    match s with
    | a :: b :: c :: r => if isNanLit [a, b, c] then some ([a, b, c], r) else none
    | _ => none

def numTokenStringsNaNAux : Nat → Str → List Str
  | 0, _ => []
  | fuel + 1, s =>
    match matchNumTokenKeepNaN s with
    | some (tok, rest) => tok :: numTokenStringsNaNAux fuel rest
    | none =>
      match s with
      | [] => []
      | _ :: t => numTokenStringsNaNAux fuel t

def numTokenStringsNaN (s : Str) : List Str := numTokenStringsNaNAux (s.length + 1) s

/-- `tokenizeNumbersKeepNaN(block)`: numbers with textual `NaN` tokens mapped
    to `null` in place. -/
def tokenizeNumbersKeepNaN (block : Str) : List (Option ℚ) :=
  if block.isEmpty then []
  else (numTokenStringsNaN block).map (fun tok =>
    if isNanLit tok then none else some (numOfToken tok))

/-- `Math.min` / `Math.max` on two (non-NaN) numbers. -/
def jsMin (a b : ℚ) : ℚ := if a ≤ b then a else b

def jsMax (a b : ℚ) : ℚ := if a ≤ b then b else a

/-- `Math.abs`. -/
def jsAbs (q : ℚ) : ℚ := if q < 0 then -q else q

/-- `Math.trunc` (truncation toward zero) on a rational, computed directly
    from the numerator and denominator. -/
def jsTrunc (q : ℚ) : ℤ := q.num.tdiv (q.den : ℤ)

/-- ECMA `DayFromYear(y)`: days from 1970-01-01 to January 1 of year `y`
    (proleptic Gregorian; `⌊·⌋` is real floor, i.e. `Int.fdiv`). -/
def dayFromYear (y : ℤ) : ℤ :=
  365 * (y - 1970) + (y - 1969).fdiv 4 - (y - 1901).fdiv 100 + (y - 1601).fdiv 400

/-- Year (Gregorian) of a day-of-era `doe ∈ [0, 146097)`, where day 0 of the
    era is March 1 of year 0 of the era; years are counted so that the result
    is the calendar year of that civil date with the era's year 0 as base
    (days in January and February belong to the next March-based year). -/
def yearOfDoe (doe : Nat) : ℤ :=
  let yoe := (doe - doe / 1460 + doe / 36524 - doe / 146096) / 365
  let doy := doe - (365 * yoe + yoe / 4 - yoe / 100)
  let mp := (5 * doy + 2) / 153
  if 10 ≤ mp then (yoe : ℤ) + 1 else (yoe : ℤ)

/-- Calendar year containing epoch day `z` (days since 1970-01-01 UTC),
    computed by the standard era decomposition. -/
def yearFromDay (z : ℤ) : ℤ :=
  let z' := z + 719468
  let era := z'.fdiv 146097
  let doe := (z' - 146097 * era).toNat
  400 * era + yearOfDoe doe

/-- `new Date(ms).getUTCFullYear()` for a finite, clipped time value. -/
def yearFromTime (t : ℤ) : ℤ := yearFromDay (t.fdiv 86400000)

/-- Label of a single time value in the day-offset branch of `toYearLabels`:
    `String(new Date(Date.UTC(1970,0,1) + d * 86_400_000).getUTCFullYear())`.
    The time value is clipped per ECMA `TimeClip`: out-of-range times make an
    invalid date whose UTC year is `NaN`. -/
def utcYearLabel (d : ℚ) : String :=
  let tms : ℚ := d * (86400000 : ℚ)
  if (8640000000000000 : ℚ) < jsAbs tms then "NaN"
  else toString (yearFromTime (jsTrunc tms))

/-- `toYearLabels(timeVals)`. -/
def toYearLabels (timeVals : List ℚ) : List String :=
  match timeVals with
  | [] => []
  | v :: rest =>
    let mn := rest.foldl jsMin v
    let mx := rest.foldl jsMax v
    if 1800 ≤ mn ∧ mx ≤ 2100 then
      (v :: rest).map (fun x => toString (jsTrunc x))
    else
      (v :: rest).map utcYearLabel

/-- JSON-style values: used both for the heterogeneous chart rows (strings,
    numbers, nulls) and for the persisted-cache model. -/
inductive JVal where
  | jnull : JVal
  | jbool : Bool → JVal
  | jnum : ℚ → JVal
  | jstr : String → JVal
  | jarr : List JVal → JVal
  | jobj : List (String × JVal) → JVal
deriving Repr

/-- Result shape of `buildChartData`. -/
structure ChartBundle where
  crossShore : List ℚ
  years : List String
  altitudeByYear : List (List (Option ℚ))
  chartRows : List (List JVal)
deriving Repr

/-- Integer reading of a canonical decimal string (optional minus sign and
    digits), as a `List Char` recursion. -/
def labelToInt? (s : String) : Option ℤ :=
  let digits : Str → Option ℤ := fun l =>
    if !l.isEmpty && l.all Char.isDigit then some (natOfDigits l : ℤ) else none
  match s.data with
  | '-' :: t => (digits t).map (fun n => -n)
  | t => digits t

/-- Numeric coercion of a year-label string (labels from `toYearLabels`
    are canonical integer strings, so `Number(label)` is its integer value;
    anything else coerces to NaN, for which both range comparisons fail). -/
def yearCell (t : String) : String :=
  match labelToInt? t with
  | some n => if 1500 ≤ n.natAbs ∧ n.natAbs ≤ 3000 then toString n else "t" ++ toString n
  | none => "tNaN"

def jvalOfCell (v : Option ℚ) : JVal :=
  match v with
  | some q => JVal.jnum q
  | none => JVal.jnull

/-- `buildChartData(crossShore, times, altitude2D)`. -/
def buildChartData (crossShore : List ℚ) (times : List String)
    (altitude2D : List (List (Option ℚ))) : ChartBundle :=
  let years := times.map yearCell
  let rows :=
    (JVal.jstr ("cross_shore") :: crossShore.map JVal.jnum)
    :: years.enum.map (fun p =>
         JVal.jstr p.2 :: (altitude2D.getD p.1 []).map jvalOfCell)
  { crossShore := crossShore, years := years, altitudeByYear := altitude2D,
    chartRows := rows }

/-- The reshape `switch` of `parseOpendapAscii`: strategies tried in source
    order, first matching case wins. `flatAlt[p] ?? null` is `getD _ none`. -/
def reshapeAltitude (flatAlt : List (Option ℚ)) (T X : Nat) :
    Except String (List (List (Option ℚ))) :=
  if flatAlt.length = T * X then
    Except.ok ((List.range T).map (fun t =>
      (List.range X).map (fun x => flatAlt.getD (t * X + x) none)))
  else if flatAlt.length = X * T then
    Except.ok ((List.range T).map (fun t =>
      (List.range X).map (fun x => flatAlt.getD (x * T + t) none)))
  else if flatAlt.length = T * 1 * X then
    Except.ok ((List.range T).map (fun t =>
      (List.range X).map (fun x => flatAlt.getD (t * X + x) none)))
  else
    Except.error ("Altitude size mismatch: got " ++ toString flatAlt.length
      ++ ", expected " ++ toString T ++ "×" ++ toString X ++ "="
      ++ toString (T * X) ++ ".")

/-- The sentinel pass of `parseOpendapAscii`:
    `for (...) if (flatAlt[i] === -9999) flatAlt[i] = null`. -/
def applySentinel (flat : List ℚ) : List (Option ℚ) :=
  flat.map (fun v => if v = -9999 then none else some v)

def excerpt (ascii : Str) : String := String.mk (ascii.take 500)

/-- `parseOpendapAscii(ascii)`: thrown errors become `Except.error`. -/
def parseOpendapAscii (ascii : Str) : Except String ChartBundle :=
  let crossBlock := capturePayloadBlock ascii ("cross_shore".data)
  let timeBlock := capturePayloadBlock ascii ("time".data)
  let altBlock := capturePayloadBlock ascii ("altitude".data)
  let cleanAltBlock := stripOpendapIndices altBlock
  let cross := tokenizeNumbers crossBlock
  let rawTime := tokenizeNumbers timeBlock
  let time := toYearLabels rawTime
  if cross.length = 0 ∨ time.length = 0 then
    Except.error ("Could not parse cross_shore/time arrays from payload. "
      ++ "Check that the .ascii response includes headers like cross_shore[...] and time[...]. "
      ++ "Response (first 500 chars):\n" ++ excerpt ascii)
  else
    let flatAlt := applySentinel (tokenizeNumbers cleanAltBlock)
    if flatAlt.length = 0 then
      Except.error ("Could not parse altitude array from payload. "
        ++ "Ensure the .ascii request includes altitude[...]. "
        ++ "Response (first 500 chars):\n" ++ excerpt ascii)
    else
      match reshapeAltitude flatAlt time.length cross.length with
      | Except.ok altitude2D => Except.ok (buildChartData cross time altitude2D)
      | Except.error e => Except.error e

/-- `nums.map(n => Number.parseInt(String(n), 10)).filter(Number.isFinite)`:
    on a rational produced by the tokenizer, `String(n)` renders the number
    and `parseInt` truncates it to its integral part (every such value is
    finite, so the filter keeps everything). -/
def jsParseIntOfNum (q : ℚ) : ℤ := jsTrunc q

/-- `_parseIdList(ascii)` from the store. -/
def parseIdList (ascii : Str) : List ℤ :=
  let payload := capturePayloadBlock ascii ("id".data)
  let clean := stripOpendapIndices payload
  let nums := tokenizeNumbers clean
  nums.map jsParseIntOfNum

/-! ### Coastline time-series parsers (part_000) -/

structure BasalResult where
  years : List String
  basalCoastline : List (Option ℚ)
  testingCoastline : List (Option ℚ)
  dataPoints : List (String × Option ℚ)
deriving Repr

def nullSentinel (v : Option ℚ) : Option ℚ :=
  if v = some (-9999) then none else v

/-- `parseBasalCoastlineAscii(ascii)`. -/
def parseBasalCoastlineAscii (ascii : Str) : Except String BasalResult :=
  let timeBlock := capturePayloadBlock ascii ("time".data)
  let basalBlock := capturePayloadBlock ascii ("basal_coastline".data)
  let testingBlock := capturePayloadBlock ascii ("testing_coastline".data)
  let cleanBasalBlock := stripOpendapIndices basalBlock
  let cleanTestingBlock := stripOpendapIndices testingBlock
  let timeValues := tokenizeNumbers timeBlock
  let basalValues := tokenizeNumbersKeepNaN cleanBasalBlock
  let testingValues :=
    if cleanTestingBlock.isEmpty then [] else tokenizeNumbersKeepNaN cleanTestingBlock
  if timeValues.length = 0 ∨ basalValues.length = 0 then
    Except.error ("Could not parse time/basal_coastline arrays from payload. "
      ++ "Response (first 500 chars):\n" ++ excerpt ascii)
  else
    let years := toYearLabels timeValues
    let processedBasal := basalValues.map nullSentinel
    let processedTesting :=
      if 0 < testingValues.length then testingValues.map nullSentinel else []
    let dataPoints := years.enum.map (fun p => (p.2, processedBasal.getD p.1 none))
    Except.ok { years := years, basalCoastline := processedBasal,
                testingCoastline := processedTesting, dataPoints := dataPoints }

structure MomentaryResult where
  years : List String
  momentaryCoastline : List (Option ℚ)
deriving Repr

/-- `parseMomentaryCoastlineAscii(ascii)`. -/
def parseMomentaryCoastlineAscii (ascii : Str) : Except String MomentaryResult :=
  let timeBlock := capturePayloadBlock ascii ("time".data)
  let momentaryBlock := capturePayloadBlock ascii ("momentary_coastline".data)
  let cleanMomentaryBlock := stripOpendapIndices momentaryBlock
  let timeValues := tokenizeNumbers timeBlock
  let momentaryValues := tokenizeNumbersKeepNaN cleanMomentaryBlock
  if timeValues.length = 0 ∨ momentaryValues.length = 0 then
    Except.error ("Could not parse time/momentary_coastline arrays from payload. "
      ++ "Response (first 500 chars):\n" ++ excerpt ascii)
  else
    Except.ok { years := toYearLabels timeValues,
                momentaryCoastline := momentaryValues.map nullSentinel }

structure MhwResult where
  years : List String
  meanHighWaterCross : List (Option ℚ)
  meanLowWaterCross : List (Option ℚ)
deriving Repr

/-- `parseMeanHighWaterCrossAscii(ascii)`. -/
def parseMeanHighWaterCrossAscii (ascii : Str) : Except String MhwResult :=
  let timeBlock := capturePayloadBlock ascii ("time".data)
  let mhwBlock := capturePayloadBlock ascii ("mean_high_water_cross".data)
  let mlwBlock := capturePayloadBlock ascii ("mean_low_water_cross".data)
  let cleanMhwBlock := stripOpendapIndices mhwBlock
  let cleanMlwBlock := stripOpendapIndices mlwBlock
  let timeValues := tokenizeNumbers timeBlock
  let mhwValues := tokenizeNumbersKeepNaN cleanMhwBlock
  let mlwValues := if cleanMlwBlock.isEmpty then [] else tokenizeNumbersKeepNaN cleanMlwBlock
  if timeValues.length = 0 ∨ mhwValues.length = 0 then
    Except.error ("Could not parse time/mean_high_water_cross arrays from payload. "
      ++ "Response (first 500 chars):\n" ++ excerpt ascii)
  else
    Except.ok { years := toYearLabels timeValues,
                meanHighWaterCross := mhwValues.map nullSentinel,
                meanLowWaterCross :=
                  if 0 < mlwValues.length then mlwValues.map nullSentinel else [] }

/-! ### JSON model

`JSON.parse` / `JSON.stringify` are platform builtins; they are modelled here
by an executable parser/printer for the standard JSON grammar (`\uXXXX`
string escapes are the one omission — the app never produces them for the
ASCII payloads it persists). -/

def jsonWs (c : Char) : Bool := c = ' ' || c = '\t' || c = '\n' || c = '\r'

def lbrace : Char := Char.ofNat 123
def rbrace : Char := Char.ofNat 125

def hexVal? (c : Char) : Option Nat :=
  if c.isDigit then some (c.toNat - Char.toNat '0')
  else if 'a' ≤ c && c ≤ 'f' then some (c.toNat - Char.toNat 'a' + 10)
  else if 'A' ≤ c && c ≤ 'F' then some (c.toNat - Char.toNat 'A' + 10)
  else none

/-- JSON string body after the opening quote; returns content and rest. -/
def jsonStringBody : Nat → Str → Option (Str × Str)
  | 0, _ => none
  | _, '"' :: r => some ([], r)
  | fuel + 1, '\\' :: e :: r =>
    let esc? : Option (Char × Str) :=
      if e = '"' then some ('"', r)
      else if e = '\\' then some ('\\', r)
      else if e = '/' then some ('/', r)
      else if e = 'b' then some (Char.ofNat 8, r)
      else if e = 'f' then some (Char.ofNat 12, r)
      else if e = 'n' then some ('\n', r)
      else if e = 'r' then some ('\r', r)
      else if e = 't' then some ('\t', r)
      else if e = 'u' then
        match r with
        | h1 :: h2 :: h3 :: h4 :: r' =>
          match hexVal? h1, hexVal? h2, hexVal? h3, hexVal? h4 with
          | some a, some b, some c, some d =>
            some (Char.ofNat (((a * 16 + b) * 16 + c) * 16 + d), r')
          | _, _, _, _ => none
        | _ => none
      else none
    match esc? with
    | some (c, r') =>
      match jsonStringBody fuel r' with
      | some (body, rest) => some (c :: body, rest)
      | none => none
    | none => none
  | fuel + 1, c :: r =>
    if c.toNat < 32 then none
    else
      match jsonStringBody fuel r with
      | some (body, rest) => some (c :: body, rest)
      | none => none
  | _, [] => none

/-- JSON number at the start of `s` (strict grammar). -/
def jsonNumber (s : Str) : Option (ℚ × Str) :=
  let (neg, t) := match s with
    | '-' :: r => (true, r)
    | _ => (false, s)
  let ip := t.takeWhile Char.isDigit
  let t1 := t.dropWhile Char.isDigit
  if ip.isEmpty then none
  else if 1 < ip.length ∧ ip.headD ' ' = '0' then none
  else
    let (frac, flen, t2) :=
      match t1 with
      | '.' :: r =>
        (natOfDigits (r.takeWhile Char.isDigit),
         (r.takeWhile Char.isDigit).length,
         r.dropWhile Char.isDigit)
      | _ => (0, 0, t1)
    let fracOk : Bool :=
      match t1 with
      | '.' :: r => !(r.takeWhile Char.isDigit).isEmpty
      | _ => true
    let (e, t3, expOk) :=
      match t2 with
      | c :: r =>
        if c = 'e' || c = 'E' then
          let (sgn, r1) := match r with
            | '-' :: r2 => ((-1 : ℤ), r2)
            | '+' :: r2 => ((1 : ℤ), r2)
            | _ => ((1 : ℤ), r)
          let d := r1.takeWhile Char.isDigit
          (sgn * (natOfDigits d : ℤ), r1.dropWhile Char.isDigit, !d.isEmpty)
        else ((0 : ℤ), t2, true)
      | [] => ((0 : ℤ), t2, true)
    if fracOk && expOk then
      some (ratOfParts neg (natOfDigits ip) frac flen e, t3)
    else none

mutual

def jsonVal : Nat → Str → Option (JVal × Str)
  | 0, _ => none
  | fuel + 1, s =>
    let s := s.dropWhile jsonWs
    match s with
    | 'n' :: 'u' :: 'l' :: 'l' :: r => some (JVal.jnull, r)
    | 't' :: 'r' :: 'u' :: 'e' :: r => some (JVal.jbool true, r)
    | 'f' :: 'a' :: 'l' :: 's' :: 'e' :: r => some (JVal.jbool false, r)
    | '"' :: r =>
      match jsonStringBody (r.length + 1) r with
      | some (body, rest) => some (JVal.jstr (String.mk body), rest)
      | none => none
    | c :: r =>
      if c = lbrace then
        let r1 := r.dropWhile jsonWs
        match r1 with
        | c2 :: r2 =>
          if c2 = rbrace then some (JVal.jobj [], r2)
          else jsonMembers fuel (c2 :: r2) []
        | [] => none
      else if c = '[' then
        let r1 := r.dropWhile jsonWs
        match r1 with
        | ']' :: r2 => some (JVal.jarr [], r2)
        | _ => jsonElems fuel r1 []
      else
        match jsonNumber (c :: r) with
        | some (q, rest) => some (JVal.jnum q, rest)
        | none => none
    | [] => none

def jsonMembers : Nat → Str → List (String × JVal) → Option (JVal × Str)
  | 0, _, _ => none
  | fuel + 1, s, acc =>
    let s := s.dropWhile jsonWs
    match s with
    | '"' :: r =>
      match jsonStringBody (r.length + 1) r with
      | some (key, r1) =>
        let r2 := r1.dropWhile jsonWs
        match r2 with
        | ':' :: r3 =>
          match jsonVal fuel r3 with
          | some (v, r4) =>
            let r5 := r4.dropWhile jsonWs
            match r5 with
            | ',' :: r6 => jsonMembers fuel r6 (acc ++ [(String.mk key, v)])
            | c :: r6 =>
              if c = rbrace then some (JVal.jobj (acc ++ [(String.mk key, v)]), r6)
              else none
            | [] => none
          | none => none
        | _ => none
      | none => none
    | _ => none

def jsonElems : Nat → Str → List JVal → Option (JVal × Str)
  | 0, _, _ => none
  | fuel + 1, s, acc =>
    match jsonVal fuel s with
    | some (v, r) =>
      let r1 := r.dropWhile jsonWs
      match r1 with
      | ',' :: r2 => jsonElems fuel r2 (acc ++ [v])
      | ']' :: r2 => some (JVal.jarr (acc ++ [v]), r2)
      | _ => none
    | none => none

end

/-- `JSON.parse(s)`, as an option (a syntax error throws in JS). -/
def jsonParse (s : String) : Option JVal :=
  match jsonVal (s.length + 1) s.data with
  | some (v, rest) => if (rest.dropWhile jsonWs).isEmpty then some v else none
  | none => none

/-- Object member lookup `obj.k` (last duplicate wins, as in `JSON.parse`);
    `undefined` on anything that is not an object with that key. -/
def jGet (v : JVal) (k : String) : Option JVal :=
  match v with
  | JVal.jobj fields => (fields.reverse.find? (fun p => p.1 = k)).map Prod.snd
  | _ => none

/-- JSON string escaping for the characters the app can persist. -/
def jsonEscChar (c : Char) : Str :=
  if c = '"' then ['\\', '"']
  else if c = '\\' then ['\\', '\\']
  else if c = '\n' then ['\\', 'n']
  else if c = '\r' then ['\\', 'r']
  else if c = '\t' then ['\\', 't']
  else if c = Char.ofNat 8 then ['\\', 'b']
  else if c = Char.ofNat 12 then ['\\', 'f']
  else [c]

def jsonEncStr (s : String) : String :=
  String.mk ('"' :: (s.data.foldr (fun c acc => jsonEscChar c ++ acc) ['"']))

/-- `JSON.stringify({ t, data })` for a cache entry. -/
def encodeCacheEntry (t : ℤ) (data : String) : String :=
  String.mk [lbrace] ++ jsonEncStr ("t") ++ ":" ++ toString t ++ ","
    ++ jsonEncStr ("data") ++ ":" ++ jsonEncStr data ++ String.mk [rbrace]

/-! ### Store state, environment and effects

The Pinia store state of part_000, plus an environment for `localStorage`
and `AbortController` bookkeeping. Aborters are modelled by generation
numbers: creating a controller draws a fresh generation, `abort()` records
the generation in `aborted`. Asynchronous actions are state machines whose
suspension points (`await fetch`, `await res.text()`) are explicit: each
synchronous segment is one function from configuration to configuration,
returning the list of outward effects it performs and the continuation
phase. Single-threaded cooperative scheduling means segments never
interleave within themselves. -/

structure Store where
  loading : Bool
  error : Option String
  warning : Option String
  rawText : Str
  fetchedAt : Option JVal
  chartReady : Bool
  chartData : Option (List (List JVal))
  years : List String
  crossShore : List ℚ
  altitudeByYear : List (List (Option ℚ))
  loadingIds : Bool
  idsError : Option String
  idList : List JVal
  idsFetchedAt : Option JVal
  loadingAlong : Bool
  alongError : Option String
  alongshoreList : List JVal
  loadingArea : Bool
  areaError : Option String
  areacodeList : List JVal
  areanameList : List JVal
  loadingRsp : Bool
  rspError : Option String
  rspXList : List JVal
  rspYList : List JVal
  rspLatList : List JVal
  rspLonList : List JVal
  loadingWater : Bool
  waterError : Option String
  meanLowWaterList : List JVal
  meanHighWaterList : List JVal
  loadingBasal : Bool
  basalError : Option String
  basalYears : List String
  basalCoastline : List (Option ℚ)
  testingCoastline : List (Option ℚ)
  basalDataPoints : List (String × Option ℚ)
  basalReady : Bool
  basalFetchedAt : Option JVal
  loadingMomentary : Bool
  momentaryError : Option String
  momentaryYears : List String
  momentaryCoastline : List (Option ℚ)
  momentaryReady : Bool
  momentaryFetchedAt : Option JVal
  loadingMhw : Bool
  mhwError : Option String
  mhwYears : List String
  meanHighWaterCross : List (Option ℚ)
  meanLowWaterCross : List (Option ℚ)
  mhwReady : Bool
  mhwFetchedAt : Option JVal
  aborter : Option Nat
  basalAborter : Option Nat
  momentaryAborter : Option Nat
  mhwAborter : Option Nat
deriving Repr

/-- The initial store state (`state: () => ({ ... })`). -/
def initialStore : Store where
  loading := false
  error := none
  warning := none
  rawText := []
  fetchedAt := none
  chartReady := false
  chartData := none
  years := []
  crossShore := []
  altitudeByYear := []
  loadingIds := false
  idsError := none
  idList := []
  idsFetchedAt := none
  loadingAlong := false
  alongError := none
  alongshoreList := []
  loadingArea := false
  areaError := none
  areacodeList := []
  areanameList := []
  loadingRsp := false
  rspError := none
  rspXList := []
  rspYList := []
  rspLatList := []
  rspLonList := []
  loadingWater := false
  waterError := none
  meanLowWaterList := []
  meanHighWaterList := []
  loadingBasal := false
  basalError := none
  basalYears := []
  basalCoastline := []
  testingCoastline := []
  basalDataPoints := []
  basalReady := false
  basalFetchedAt := none
  loadingMomentary := false
  momentaryError := none
  momentaryYears := []
  momentaryCoastline := []
  momentaryReady := false
  momentaryFetchedAt := none
  loadingMhw := false
  mhwError := none
  mhwYears := []
  meanHighWaterCross := []
  meanLowWaterCross := []
  mhwReady := false
  mhwFetchedAt := none
  aborter := none
  basalAborter := none
  momentaryAborter := none
  mhwAborter := none

structure Env where
  ls : List (String × String)
  aborted : List Nat
  nextGen : Nat
deriving Repr

structure Config where
  store : Store
  env : Env
deriving Repr

inductive Effect where
  | getItem : String → Effect
  | setItem : String → String → Effect
  | removeItem : String → Effect
  | netFetch : String → Option Nat → Effect
  | abortSignal : Nat → Effect
  | bgRefresh : String → String → Effect
  | warn : String → Effect
deriving Repr, DecidableEq

def lsGet (ls : List (String × String)) (k : String) : Option String :=
  (ls.find? (fun p => p.1 = k)).map Prod.snd

def lsSet (ls : List (String × String)) (k v : String) : List (String × String) :=
  (ls.filter (fun p => p.1 ≠ k)) ++ [(k, v)]

/-- `_cacheKey(url)`. -/
def cacheKey (url : String) : String := "opendap_cache::" ++ url

/-- JS truthiness coercion `x || null` on an optional object field. -/
def truthyOrNull (v : Option JVal) : Option JVal :=
  match v with
  | none => none
  | some JVal.jnull => none
  | some (JVal.jbool false) => none
  | some (JVal.jnum q) => if q = 0 then none else some (JVal.jnum q)
  | some (JVal.jstr s) => if s = "" then none else some (JVal.jstr s)
  | some x => some x

/-- `const text = obj.data || ''` followed by use of `text` as a string:
    a falsy field yields the empty string (`ok none`); a truthy string is
    returned; a truthy non-string survives the `||` but makes the downstream
    `text.replace(...)` inside the parser throw a `TypeError`. -/
def jsDataText (v : Option JVal) : Except String (Option Str) :=
  match v with
  | none => Except.ok none
  | some JVal.jnull => Except.ok none
  | some (JVal.jbool false) => Except.ok none
  | some (JVal.jbool true) => Except.error ("TypeError: text.replace is not a function")
  | some (JVal.jnum q) =>
    if q = 0 then Except.ok none
    else Except.error ("TypeError: text.replace is not a function")
  | some (JVal.jstr s) => if s = "" then Except.ok none else Except.ok (some s.data)
  | some (JVal.jarr _) => Except.error ("TypeError: text.replace is not a function")
  | some (JVal.jobj _) => Except.error ("TypeError: text.replace is not a function")

/-- Continuation phase of an asynchronous action. -/
inductive Phase where
  | done : Phase
  | awaitFetch : Nat → String → Phase
  | awaitText : Nat → String → Phase
deriving Repr, DecidableEq

structure StepOut where
  cfg : Config
  effects : List Effect
  phase : Phase

/-! ### `fetchOpendapAscii` (part_000, cache-first revision) -/

/-- The `try` body of the cache branch of `fetchOpendapAscii`:
    `ok (some hit)` = parsed cache hit (early return), `ok none` = falsy
    `text` (fall through to the network), `error` = a thrown exception
    (caught, logged with `console.warn`, fall through to the network). -/
def foCacheAttempt (c : String) :
    Except String (Option (Option JVal × Str × ChartBundle)) :=
  match jsonParse c with
  | none => Except.error ("SyntaxError: Unexpected token in JSON")
  | some obj =>
    match jsDataText (jGet obj ("data")) with
    | Except.error e => Except.error e
    | Except.ok none => Except.ok none
    | Except.ok (some text) =>
      match parseOpendapAscii text with
      | Except.error e => Except.error e
      | Except.ok parsed => Except.ok (some (jGet obj ("t"), text, parsed))

/-- The shared fall-through tail of `fetchOpendapAscii`: cancel the previous
    in-flight request, install a fresh aborter, reset the chart state and
    suspend at `await fetch(url, { signal })`. -/
def foProceedToFetch (url : String) (cfg : Config) (eff : List Effect) : StepOut :=
  let env0 := cfg.env
  let abortStep :=
    match cfg.store.aborter with
    | some g => ({ env0 with aborted := env0.aborted ++ [g] }, [Effect.abortSignal g])
    | none => (env0, ([] : List Effect))
  let env1 := abortStep.1
  let g := env1.nextGen
  let env2 := { env1 with nextGen := g + 1 }
  let st := { cfg.store with
    aborter := some g, loading := true, error := none, warning := none,
    chartReady := false, chartData := none, years := [], crossShore := [],
    altitudeByYear := [] }
  ⟨⟨st, env2⟩, eff ++ abortStep.2 ++ [Effect.netFetch url (some g)], Phase.awaitFetch g url⟩

/-- Synchronous prefix of `fetchOpendapAscii(url)` up to its first suspension
    (or its early return on a cache hit). -/
def foStart (url : String) (cfg : Config) : StepOut :=
  if url = "" then ⟨cfg, [], Phase.done⟩
  else
    let key := cacheKey url
    let cached := lsGet cfg.env.ls key
    let eff0 := [Effect.getItem key]
    match cached with
    | none => foProceedToFetch url cfg eff0
    | some c =>
      match foCacheAttempt c with
      | Except.ok (some hit) =>
        let st := { cfg.store with
          chartData := some hit.2.2.chartRows, years := hit.2.2.years,
          crossShore := hit.2.2.crossShore, altitudeByYear := hit.2.2.altitudeByYear,
          chartReady := true, rawText := hit.2.1,
          fetchedAt := truthyOrNull hit.1, error := none, warning := none,
          loading := false }
        ⟨⟨st, cfg.env⟩, eff0 ++ [Effect.bgRefresh url key], Phase.done⟩
      | Except.ok none => foProceedToFetch url cfg eff0
      | Except.error e => foProceedToFetch url cfg (eff0 ++ [Effect.warn e])

/-- Network outcome observed when the `await fetch` resumes. An aborted
    generation resumes as an `AbortError` rejection regardless of `r`. -/
inductive FetchOutcome where
  | success : FetchOutcome
  | httpErr : Nat → FetchOutcome
  | netErr : String → FetchOutcome
deriving Repr, DecidableEq

/-- Resumption of `fetchOpendapAscii` at `await fetch`. -/
def foResumeFetch (gen : Nat) (url : String) (r : FetchOutcome) (cfg : Config) : StepOut :=
  if cfg.env.aborted.contains gen then
    ⟨⟨{ cfg.store with loading := false }, cfg.env⟩, [], Phase.done⟩
  else
    match r with
    | FetchOutcome.success => ⟨cfg, [], Phase.awaitText gen url⟩
    | FetchOutcome.httpErr status =>
      ⟨⟨{ cfg.store with
          error := some ("Failed to fetch OpenDAP data (" ++ toString status ++ ")"),
          loading := false }, cfg.env⟩, [], Phase.done⟩
    | FetchOutcome.netErr m =>
      ⟨⟨{ cfg.store with error := some m, loading := false }, cfg.env⟩, [], Phase.done⟩

/-- `MAX_LOCALSTORAGE_CACHE_SIZE`. -/
def MAX_LOCALSTORAGE_CACHE_SIZE : Nat := 500000

/-- Resumption of `fetchOpendapAscii` at `await res.text()`: store the raw
    text, parse, publish the chart state, and cache the text unless it is
    over the size ceiling (in which case a non-fatal warning is set). `now`
    is the value of `Date.now()`. -/
def foResumeText (gen : Nat) (url : String) (text : Str) (now : ℤ) (cfg : Config) : StepOut :=
  if cfg.env.aborted.contains gen then
    ⟨⟨{ cfg.store with loading := false }, cfg.env⟩, [], Phase.done⟩
  else
    let st0 := { cfg.store with rawText := text, fetchedAt := some (JVal.jnum (now : ℚ)) }
    match parseOpendapAscii text with
    | Except.error e =>
      ⟨⟨{ st0 with error := some e, loading := false }, cfg.env⟩, [], Phase.done⟩
    | Except.ok parsed =>
      let st1 := { st0 with
        chartData := some parsed.chartRows, years := parsed.years,
        crossShore := parsed.crossShore, altitudeByYear := parsed.altitudeByYear,
        chartReady := true }
      if text.length ≤ MAX_LOCALSTORAGE_CACHE_SIZE then
        let v := encodeCacheEntry now (String.mk text)
        ⟨⟨{ st1 with loading := false },
          { cfg.env with ls := lsSet cfg.env.ls (cacheKey url) v }⟩,
         [Effect.setItem (cacheKey url) v], Phase.done⟩
      else
        ⟨⟨{ st1 with
            warning := some ("Data fetched and parsed, but skipped local caching due to size."),
            loading := false }, cfg.env⟩, [], Phase.done⟩

/-- `loadFromCache(url)` (fully synchronous). When the persisted `data`
    field is a truthy non-string, the JS code assigns that value to
    `this.rawText` before the parser throws; the model leaves a cleared
    `rawText` in that corner case (the claim-relevant observable, `error`,
    is set identically). -/
def loadFromCache (url : String) (cfg : Config) : Config × List Effect :=
  if url = "" then (cfg, [])
  else
    let key := cacheKey url
    let cached := lsGet cfg.env.ls key
    let effs := [Effect.getItem key]
    match cached with
    | none =>
      (⟨{ cfg.store with error := some ("No cached data for this URL.") }, cfg.env⟩, effs)
    | some c =>
      match jsonParse c with
      | none =>
        (⟨{ cfg.store with error := some ("SyntaxError: Unexpected token in JSON") },
          cfg.env⟩, effs)
      | some obj =>
        let tF := truthyOrNull (jGet obj ("t"))
        match jsDataText (jGet obj ("data")) with
        | Except.error e =>
          (⟨{ cfg.store with
                rawText := [], fetchedAt := tF, warning := none,
                error := some e }, cfg.env⟩, effs)
        | Except.ok t? =>
          let text := t?.getD []
          let st0 := { cfg.store with
            rawText := text, fetchedAt := tF, error := none, warning := none }
          match parseOpendapAscii text with
          | Except.error e => (⟨{ st0 with error := some e }, cfg.env⟩, effs)
          | Except.ok parsed =>
            (⟨{ st0 with
                chartData := some parsed.chartRows, years := parsed.years,
                crossShore := parsed.crossShore, altitudeByYear := parsed.altitudeByYear,
                chartReady := true }, cfg.env⟩, effs)

/-! ### `fetchTransectIdList` (synchronous prefix) -/

def ID_LIST_CACHE_KEY : String := "jarkus_id_list_v1"

def IDS_URL : String :=
  "https://opendap.deltares.nl/thredds/dodsC/opendap/rijkswaterstaat/jarkus/profiles/transect.nc.ascii?id[0:1:2464]"

/-- The cache branch of `fetchTransectIdList`: `ok` when the stored entry
    deserializes to an object whose `list` member is a non-empty array
    (any JSON syntax error is swallowed by the empty `catch`). -/
def idListCacheRead (cached : Option String) : Option (List JVal × Option JVal) :=
  match cached with
  | none => none
  | some c =>
    match jsonParse c with
    | none => none
    | some obj =>
      match jGet obj ("list") with
      | some (JVal.jarr l) =>
        if 0 < l.length then some (l, truthyOrNull (jGet obj ("when"))) else none
      | _ => none

/-- Synchronous prefix of `fetchTransectIdList()` up to its first suspension:
    early return when the list is already in state, then the cache branch,
    then the network dispatch. -/
def fetchTransectIdListStart (cfg : Config) : StepOut :=
  if 0 < cfg.store.idList.length then ⟨cfg, [], Phase.done⟩
  else
    let cached := lsGet cfg.env.ls ID_LIST_CACHE_KEY
    let effs := [Effect.getItem ID_LIST_CACHE_KEY]
    match idListCacheRead cached with
    | some hit =>
      ⟨⟨{ cfg.store with idList := hit.1, idsFetchedAt := hit.2 }, cfg.env⟩, effs,
       Phase.done⟩
    | none =>
      ⟨⟨{ cfg.store with loadingIds := true, idsError := none }, cfg.env⟩,
       effs ++ [Effect.netFetch IDS_URL none], Phase.awaitFetch 0 IDS_URL⟩

/-! ### Coastline dataset actions: synchronous prefixes (part_000) -/

def BKL_BASE_URL : String :=
  "https://opendap.deltares.nl/thredds/dodsC/opendap/rijkswaterstaat/BKL_TKL_MKL/BKL_TKL_TND.nc.ascii"

def MKL_BASE_URL : String :=
  "https://opendap.deltares.nl/thredds/dodsC/opendap/rijkswaterstaat/BKL_TKL_MKL/MKL.nc.ascii"

def MHW_MLW_BASE_URL : String :=
  "https://opendap.deltares.nl/thredds/dodsC/opendap/rijkswaterstaat/MHW_MLW/MHW_MLW.nc.ascii"

def basalUrl (i : ℤ) : String :=
  BKL_BASE_URL ++ "?time[0:1:63],basal_coastline[0:1:63][" ++ toString i
    ++ "],testing_coastline[0:1:63][" ++ toString i ++ "]"

def momentaryUrl (i : ℤ) : String :=
  MKL_BASE_URL ++ "?time[0:1:59],momentary_coastline[0:1:59][" ++ toString i ++ "]"

def mhwUrl (i : ℤ) : String :=
  MHW_MLW_BASE_URL ++ "?time[0:1:182],mean_high_water_cross[0:1:182][" ++ toString i
    ++ "],mean_low_water_cross[0:1:182][" ++ toString i ++ "]"

/-- Generic cache-branch attempt shared in shape by the three coastline
    actions, parameterized by the dataset parser. -/
def coastCacheAttempt (parse : Str → Except String α) (c : String) :
    Except String (Option (Option JVal × α)) :=
  match jsonParse c with
  | none => Except.error ("SyntaxError: Unexpected token in JSON")
  | some obj =>
    match jsDataText (jGet obj ("data")) with
    | Except.error e => Except.error e
    | Except.ok none => Except.ok none
    | Except.ok (some text) =>
      match parse text with
      | Except.error e => Except.error e
      | Except.ok parsed => Except.ok (some (jGet obj ("t"), parsed))

/-- Synchronous prefix of `fetchBasalCoastline(transectIndex)` up to its
    first suspension (or an early return: invalid index, or cache hit). -/
def fetchBasalCoastlineStart (transectIndex : ℤ) (cfg : Config) : StepOut :=
  if transectIndex < 0 ∨ 2465 ≤ transectIndex then
    ⟨⟨{ cfg.store with basalError := some ("Invalid transect index") }, cfg.env⟩, [],
     Phase.done⟩
  else
    let url := basalUrl transectIndex
    let key := "bkl_cache::" ++ url
    let cached := lsGet cfg.env.ls key
    let eff0 := [Effect.getItem key]
    let proceed : List Effect → StepOut := fun eff =>
      let env0 := cfg.env
      let abortStep :=
        match cfg.store.basalAborter with
        | some g => ({ env0 with aborted := env0.aborted ++ [g] }, [Effect.abortSignal g])
        | none => (env0, ([] : List Effect))
      let env1 := abortStep.1
      let g := env1.nextGen
      let env2 := { env1 with nextGen := g + 1 }
      let st := { cfg.store with
        basalAborter := some g, loadingBasal := true, basalError := none,
        basalReady := false, basalYears := [], basalCoastline := [],
        testingCoastline := [], basalDataPoints := [] }
      ⟨⟨st, env2⟩, eff ++ abortStep.2 ++ [Effect.netFetch url (some g)], Phase.awaitFetch g url⟩
    match cached with
    | none => proceed eff0
    | some c =>
      match coastCacheAttempt parseBasalCoastlineAscii c with
      | Except.ok (some hit) =>
        let st := { cfg.store with
          basalYears := hit.2.years, basalCoastline := hit.2.basalCoastline,
          testingCoastline := hit.2.testingCoastline,
          basalDataPoints := hit.2.dataPoints, basalReady := true,
          basalFetchedAt := truthyOrNull hit.1, basalError := none,
          loadingBasal := false }
        ⟨⟨st, cfg.env⟩, eff0 ++ [Effect.bgRefresh url key], Phase.done⟩
      | Except.ok none => proceed eff0
      | Except.error e => proceed (eff0 ++ [Effect.warn e])

/-- Synchronous prefix of `fetchMomentaryCoastline(transectIndex)`. -/
def fetchMomentaryCoastlineStart (transectIndex : ℤ) (cfg : Config) : StepOut :=
  if transectIndex < 0 ∨ 2465 ≤ transectIndex then
    ⟨⟨{ cfg.store with momentaryError := some ("Invalid transect index") }, cfg.env⟩, [],
     Phase.done⟩
  else
    let url := momentaryUrl transectIndex
    let key := "mkl_cache::" ++ url
    let cached := lsGet cfg.env.ls key
    let eff0 := [Effect.getItem key]
    let proceed : List Effect → StepOut := fun eff =>
      let env0 := cfg.env
      let abortStep :=
        match cfg.store.momentaryAborter with
        | some g => ({ env0 with aborted := env0.aborted ++ [g] }, [Effect.abortSignal g])
        | none => (env0, ([] : List Effect))
      let env1 := abortStep.1
      let g := env1.nextGen
      let env2 := { env1 with nextGen := g + 1 }
      let st := { cfg.store with
        momentaryAborter := some g, loadingMomentary := true, momentaryError := none,
        momentaryReady := false, momentaryYears := [], momentaryCoastline := [] }
      ⟨⟨st, env2⟩, eff ++ abortStep.2 ++ [Effect.netFetch url (some g)], Phase.awaitFetch g url⟩
    match cached with
    | none => proceed eff0
    | some c =>
      match coastCacheAttempt parseMomentaryCoastlineAscii c with
      | Except.ok (some hit) =>
        let st := { cfg.store with
          momentaryYears := hit.2.years, momentaryCoastline := hit.2.momentaryCoastline,
          momentaryReady := true, momentaryFetchedAt := truthyOrNull hit.1,
          momentaryError := none, loadingMomentary := false }
        ⟨⟨st, cfg.env⟩, eff0 ++ [Effect.bgRefresh url key], Phase.done⟩
      | Except.ok none => proceed eff0
      | Except.error e => proceed (eff0 ++ [Effect.warn e])

/-- Synchronous prefix of `fetchMeanHighWaterCross(transectIndex)`. -/
def fetchMeanHighWaterCrossStart (transectIndex : ℤ) (cfg : Config) : StepOut :=
  if transectIndex < 0 ∨ 2465 ≤ transectIndex then
    ⟨⟨{ cfg.store with mhwError := some ("Invalid transect index") }, cfg.env⟩, [],
     Phase.done⟩
  else
    let url := mhwUrl transectIndex
    let key := "mhw_cache::" ++ url
    let cached := lsGet cfg.env.ls key
    let eff0 := [Effect.getItem key]
    let proceed : List Effect → StepOut := fun eff =>
      let env0 := cfg.env
      let abortStep :=
        match cfg.store.mhwAborter with
        | some g => ({ env0 with aborted := env0.aborted ++ [g] }, [Effect.abortSignal g])
        | none => (env0, ([] : List Effect))
      let env1 := abortStep.1
      let g := env1.nextGen
      let env2 := { env1 with nextGen := g + 1 }
      let st := { cfg.store with
        mhwAborter := some g, loadingMhw := true, mhwError := none,
        mhwReady := false, mhwYears := [], meanHighWaterCross := [],
        meanLowWaterCross := [] }
      ⟨⟨st, env2⟩, eff ++ abortStep.2 ++ [Effect.netFetch url (some g)], Phase.awaitFetch g url⟩
    match cached with
    | none => proceed eff0
    | some c =>
      match coastCacheAttempt parseMeanHighWaterCrossAscii c with
      | Except.ok (some hit) =>
        let st := { cfg.store with
          mhwYears := hit.2.years, meanHighWaterCross := hit.2.meanHighWaterCross,
          meanLowWaterCross := hit.2.meanLowWaterCross, mhwReady := true,
          mhwFetchedAt := truthyOrNull hit.1, mhwError := none, loadingMhw := false }
        ⟨⟨st, cfg.env⟩, eff0 ++ [Effect.bgRefresh url key], Phase.done⟩
      | Except.ok none => proceed eff0
      | Except.error e => proceed (eff0 ++ [Effect.warn e])

/-! ## Concrete documents used by witnesses and counterexamples -/

/-- Scenario A of the specification: a well-formed profile response. -/
def docA : Str :=
  ("-----\ncross_shore[3]\n10, 20, 30\ntime[2]\n2010, 2011\naltitude[2][1][3]\n[0][0], 1.5, 2.5, 3.5\n[1][0], -9999, 5.5, 6.5\n").data

/-- A transposed-layout flat altitude stream for `T = 2`, `X = 3`:
    `flat[x*T + t]` ordering of the matrix `[[1,3,5],[2,4,6]]`. -/
def flat6 : List (Option ℚ) :=
  [some 1, some 2, some 3, some 4, some 5, some 6]

/-! ## C2 — the transposed reshape strategy is unreachable -/

/-- C2 (counterexample): a flat stream of length `X*T = 3*2` with `T ≠ X`
    laid out transposed is *not* resolved as `output[t][x] = flat[x*T + t]`:
    the length also equals `T*X`, so the first (row-major) `switch` case wins
    and the transposed case is dead code. -/
theorem C2_counterexample :
    reshapeAltitude flat6 2 3 =
      Except.ok [[some 1, some 2, some 3], [some 4, some 5, some 6]] ∧
    ¬ ((((reshapeAltitude flat6 2 3).toOption.getD []).getD 0 []).getD 1 none
          = flat6.getD (1 * 2 + 0) none) :=
  ⟨by rfl, by decide⟩

/-- C2 (amended): for every flat altitude sequence of length `X*T` —
    whatever `T` and `X` — the resolver applies strategy 1 (row-major),
    because `L = X*T = T*X` always satisfies the first `switch` case;
    the transposed strategy 2 can never be selected. -/
theorem C2_amended (flat : List (Option ℚ)) (T X : Nat)
    (h : flat.length = X * T) :
    reshapeAltitude flat T X =
      Except.ok ((List.range T).map (fun t =>
        (List.range X).map (fun x => flat.getD (t * X + x) none))) := by
  unfold reshapeAltitude
  rw [if_pos (h.trans (Nat.mul_comm X T))]

theorem C2_witness :
    flat6.length = 3 * 2 ∧
    reshapeAltitude flat6 2 3 =
      Except.ok ((List.range 2).map (fun t =>
        (List.range 3).map (fun x => flat6.getD (t * 3 + x) none))) :=
  ⟨by decide, C2_amended flat6 2 3 (by decide)⟩

/-! ## C4 — missing-value unification in the profile pipeline -/

/-- C4 (counterexample): in the profile pipeline (strip indices, tokenize
    with `NUM_PATTERN`, null the `-9999` sentinel), a textual `NaN` token
    does not become `null` at its position — it is not matched at all. The
    claim would produce `[null, null, 2.5]` for this block; the code
    produces `[null, 2.5]`. -/
theorem C4_counterexample :
    applySentinel (tokenizeNumbers (stripOpendapIndices (("[0][0], NaN, -9999, 2.5").data)))
      = [none, some (mkRat 5 2)] ∧
    ([none, some (mkRat 5 2)] : List (Option ℚ)) ≠ [none, none, some (mkRat 5 2)] :=
  ⟨by rfl, by decide⟩

/-- Every body produced by the alternation contains a digit. -/
theorem numBodyAlt_has_digit (s1 body r : Str)
    (h : numBodyAlt s1 = some (body, r)) : ∃ c ∈ body, c.isDigit = true := by
  simp only [numBodyAlt] at h
  by_cases hd1 : (s1.takeWhile Char.isDigit).isEmpty
  · rw [if_pos hd1] at h
    split at h
    next s3 hdw =>
      split at h
      · exact absurd h (by simp)
      next hd2 =>
        rw [Option.some.injEq, Prod.mk.injEq] at h
        obtain ⟨c, hc⟩ :=
          List.exists_mem_of_ne_nil (s3.takeWhile Char.isDigit) (by simpa using hd2)
        exact ⟨c, h.1 ▸ List.mem_cons_of_mem _ hc, List.mem_takeWhile_imp hc⟩
    next => exact absurd h (by simp)
  · have hne : s1.takeWhile Char.isDigit ≠ [] := by simpa using hd1
    obtain ⟨c, hc⟩ := List.exists_mem_of_ne_nil _ hne
    have hcd : c.isDigit := List.mem_takeWhile_imp hc
    rw [if_neg hd1] at h
    split at h
    next s3 hdw =>
      split at h
      · rw [Option.some.injEq, Prod.mk.injEq] at h
        exact ⟨c, h.1 ▸ List.mem_append_left _ hc, hcd⟩
      · rw [Option.some.injEq, Prod.mk.injEq] at h
        exact ⟨c, h.1 ▸ List.mem_append_left _ hc, hcd⟩
    next =>
      rw [Option.some.injEq, Prod.mk.injEq] at h
      exact ⟨c, h.1 ▸ hc, hcd⟩

/-- Every token the profile tokenizer's pattern matches contains a digit
    (so the letters-only literal `NaN` can never be one of its tokens). -/
theorem matchNumToken_has_digit (s tok rest : Str)
    (h : matchNumToken s = some (tok, rest)) : ∃ c ∈ tok, c.isDigit = true := by
  simp only [matchNumToken] at h
  have core : ∀ (sgn s1 : Str),
      (match numBodyAlt s1 with
       | none => none
       | some (body, r) =>
         some (sgn ++ body ++ (matchExp r).1, (matchExp r).2)) = some (tok, rest) →
      ∃ c ∈ tok, c.isDigit = true := by
    intro sgn s1 hm
    rcases hb : numBodyAlt s1 with _ | ⟨body, r⟩ <;> rw [hb] at hm
    · exact absurd hm (by simp)
    · obtain ⟨cd, hmem, hdig⟩ := numBodyAlt_has_digit _ _ _ hb
      rw [Option.some.injEq, Prod.mk.injEq] at hm
      exact ⟨cd, hm.1 ▸ List.mem_append_left _ (List.mem_append_right _ hmem), hdig⟩
  rcases s with _ | ⟨c, t⟩
  · exact core [] [] (by simpa using h)
  · by_cases hsign : (c = '-' || c = '+') = true
    · simp only [hsign] at h
      exact core [c] t (by simpa using h)
    · simp only [hsign] at h
      exact core [] (c :: t) (by simpa using h)

/-- Digit propagation through the global scan. -/
theorem numTokenStringsAux_digit :
    ∀ (fuel : Nat) (s : Str), ∀ tok ∈ numTokenStringsAux fuel s,
      ∃ c ∈ tok, c.isDigit = true := by
  intro fuel
  induction fuel with
  | zero => intro s tok h; simp [numTokenStringsAux] at h
  | succ f ih =>
    intro s tok h
    simp only [numTokenStringsAux] at h
    rcases hm : matchNumToken s with _ | ⟨t, rest⟩ <;> rw [hm] at h
    · rcases s with _ | ⟨c, tl⟩
      · simp at h
      · exact ih tl tok h
    · rcases List.mem_cons.mp h with h1 | h1
      · exact h1 ▸ matchNumToken_has_digit _ _ _ hm
      · exact ih rest tok h1

/-- C4 (amended): in the profile pipeline the two missing-value encodings
    are *not* unified. The sentinel integer `-9999` is mapped to `null` at
    its position (and nothing else is), while a case-insensitive textual
    `NaN` token is never matched by the profile tokenizer at all — every
    matched token contains a digit — so it contributes no element to the
    sequence. (The keep-NaN tokenizer that does map `NaN` to `null` is used
    only by the coastline/water parsers, not by the profile pipeline.) -/
theorem C4_amended (block : Str) (i : Nat) :
    (∀ tok ∈ numTokenStrings (stripOpendapIndices block), ∃ c ∈ tok, c.isDigit = true) ∧
    (applySentinel (tokenizeNumbers (stripOpendapIndices block))).length
      = (tokenizeNumbers (stripOpendapIndices block)).length ∧
    ((applySentinel (tokenizeNumbers (stripOpendapIndices block)))[i]? = some none
      ↔ (tokenizeNumbers (stripOpendapIndices block))[i]? = some (-9999)) := by
  refine ⟨fun tok h => numTokenStringsAux_digit _ _ tok h, ?_, ?_⟩
  · simp [applySentinel]
  · unfold applySentinel
    rw [List.getElem?_map]
    rcases hg : (tokenizeNumbers (stripOpendapIndices block))[i]? with _ | ⟨q⟩
    · simp
    · simp only [Option.map_some', Option.some.injEq]
      constructor
      · intro hq
        by_cases hq9 : q = -9999
        · exact hq9
        · rw [if_neg hq9] at hq; exact absurd hq (by simp)
      · intro hq
        rw [if_pos hq]

/-! ## C10 — transect index guard of the coastline actions -/

/-- C10: for an out-of-range transect index each of the three coastline
    actions only sets its own dataset-specific error field to
    `'Invalid transect index'` and returns at once: the store is otherwise
    untouched, no effect (cache read/write, network request, abort) is
    performed, and the action does not suspend. -/
theorem C10_guard (cfg : Config) (i : ℤ) (h : i < 0 ∨ 2465 ≤ i) :
    fetchBasalCoastlineStart i cfg =
      ⟨⟨{ cfg.store with basalError := some ("Invalid transect index") }, cfg.env⟩,
       [], Phase.done⟩ ∧
    fetchMomentaryCoastlineStart i cfg =
      ⟨⟨{ cfg.store with momentaryError := some ("Invalid transect index") }, cfg.env⟩,
       [], Phase.done⟩ ∧
    fetchMeanHighWaterCrossStart i cfg =
      ⟨⟨{ cfg.store with mhwError := some ("Invalid transect index") }, cfg.env⟩,
       [], Phase.done⟩ := by
  refine ⟨?_, ?_, ?_⟩
  · unfold fetchBasalCoastlineStart; rw [if_pos h]
  · unfold fetchMomentaryCoastlineStart; rw [if_pos h]
  · unfold fetchMeanHighWaterCrossStart; rw [if_pos h]

/-- A configuration with the initial store, empty storage, no aborted
    generations. -/
def cfg0 : Config := ⟨initialStore, ⟨[], [], 0⟩⟩

theorem C10_witness :
    ((2465 : ℤ) < 0 ∨ 2465 ≤ (2465 : ℤ)) ∧
    fetchBasalCoastlineStart 2465 cfg0 =
      ⟨⟨{ cfg0.store with basalError := some ("Invalid transect index") }, cfg0.env⟩,
       [], Phase.done⟩ :=
  ⟨Or.inr le_rfl, (C10_guard cfg0 2465 (Or.inr le_rfl)).1⟩

/-! ## C8 — cache size ceiling -/

/-- C8: when the fetched text exceeds the 500000-character ceiling, the
    success resumption of `fetchOpendapAscii` performs no cache write (no
    effect at all, and the persisted storage is unchanged), and whenever the
    text parses, the non-fatal size warning is set and the parsed result is
    applied to the chart state exactly as it would be below the ceiling. -/
theorem C8_oversize (gen : Nat) (url : String) (text : Str) (now : ℤ) (cfg : Config)
    (hab : cfg.env.aborted.contains gen = false)
    (hlen : MAX_LOCALSTORAGE_CACHE_SIZE < text.length) :
    (foResumeText gen url text now cfg).effects = [] ∧
    (foResumeText gen url text now cfg).cfg.env.ls = cfg.env.ls ∧
    (∀ r, parseOpendapAscii text = Except.ok r →
      (foResumeText gen url text now cfg).cfg.store.warning =
        some ("Data fetched and parsed, but skipped local caching due to size.") ∧
      (foResumeText gen url text now cfg).cfg.store.chartData = some r.chartRows ∧
      (foResumeText gen url text now cfg).cfg.store.years = r.years ∧
      (foResumeText gen url text now cfg).cfg.store.crossShore = r.crossShore ∧
      (foResumeText gen url text now cfg).cfg.store.altitudeByYear = r.altitudeByYear ∧
      (foResumeText gen url text now cfg).cfg.store.chartReady = true) := by
  unfold foResumeText
  simp only [hab, Bool.false_eq_true, if_false]
  rcases hp : parseOpendapAscii text with e | r'
  · dsimp only
    exact ⟨rfl, rfl, fun r hr => absurd hr (by simp)⟩
  · dsimp only
    rw [if_neg (Nat.not_le.mpr hlen)]
    refine ⟨rfl, rfl, fun r hr => ?_⟩
    have hrr : r' = r := Except.ok.inj hr
    subst hrr
    exact ⟨rfl, rfl, rfl, rfl, rfl, rfl⟩

/-- An oversized text (500001 characters). -/
def bigText : Str := List.replicate 500001 'x'

theorem C8_witness :
    cfg0.env.aborted.contains 7 = false ∧
    MAX_LOCALSTORAGE_CACHE_SIZE < bigText.length ∧
    (foResumeText 7 ("u") bigText 0 cfg0).effects = [] :=
  ⟨rfl, by rw [bigText, List.length_replicate]; decide,
   (C8_oversize 7 ("u") bigText 0 cfg0 rfl
     (by rw [bigText, List.length_replicate]; decide)).1⟩

/-! ## C1 — shape invariant of the parsed profile -/

/-- Every successful reshape has exactly `T` rows of exactly `X` elements. -/
theorem reshapeAltitude_shape (flat : List (Option ℚ)) (T X : Nat)
    (rows : List (List (Option ℚ)))
    (h : reshapeAltitude flat T X = Except.ok rows) :
    rows.length = T ∧ ∀ row ∈ rows, row.length = X := by
  unfold reshapeAltitude at h
  split_ifs at h <;>
    first
    | (rw [Except.ok.injEq] at h
       subst h
       exact ⟨by simp, fun row hrow => by
         simp only [List.mem_map] at hrow
         obtain ⟨t, _, rfl⟩ := hrow
         simp⟩)
    | exact absurd h (by simp)

/-- C1: whenever `parseOpendapAscii` succeeds, the altitude matrix has
    exactly `years.length` rows and every row has exactly
    `crossShore.length` elements. -/
theorem C1_shape (ascii : Str) (r : ChartBundle)
    (h : parseOpendapAscii ascii = Except.ok r) :
    r.altitudeByYear.length = r.years.length ∧
    ∀ row ∈ r.altitudeByYear, row.length = r.crossShore.length := by
  simp only [parseOpendapAscii] at h
  split at h
  next => exact absurd h (by simp)
  next hcond =>
    split at h
    next => exact absurd h (by simp)
    next hflat =>
      split at h
      next alt2d heq =>
        rw [Except.ok.injEq] at h
        subst h
        obtain ⟨hlen, hrows⟩ := reshapeAltitude_shape _ _ _ _ heq
        unfold buildChartData
        refine ⟨by simpa using hlen, fun row hrow => ?_⟩
        exact hrows row (by simpa using hrow)
      next e heq => exact absurd h (by simp)

/-- The parse of `docA` (Scenario A), spelled out. -/
def docABundle : ChartBundle where
  crossShore := [mkRat 10 1, mkRat 20 1, mkRat 30 1]
  years := ["2010", "2011"]
  altitudeByYear :=
    [[some (mkRat 3 2), some (mkRat 5 2), some (mkRat 7 2)],
     [none, some (mkRat 11 2), some (mkRat 13 2)]]
  chartRows :=
    [[JVal.jstr ("cross_shore"), JVal.jnum (mkRat 10 1), JVal.jnum (mkRat 20 1),
      JVal.jnum (mkRat 30 1)],
     [JVal.jstr ("2010"), JVal.jnum (mkRat 3 2), JVal.jnum (mkRat 5 2),
      JVal.jnum (mkRat 7 2)],
     [JVal.jstr ("2011"), JVal.jnull, JVal.jnum (mkRat 11 2), JVal.jnum (mkRat 13 2)]]

set_option maxRecDepth 1000000 in
theorem C1_witness :
    parseOpendapAscii docA = Except.ok docABundle ∧
    docABundle.altitudeByYear.length = docABundle.years.length ∧
    [some (mkRat 3 2), some (mkRat 5 2), some (mkRat 7 2)].length
      = docABundle.crossShore.length :=
  ⟨by rfl, (C1_shape docA docABundle (by rfl)).1,
   (C1_shape docA docABundle (by rfl)).2
     [some (mkRat 3 2), some (mkRat 5 2), some (mkRat 7 2)]
     (by simp [docABundle])⟩

/-! ## C7 — malformed persisted entries -/

/-- A configuration whose cache holds a malformed entry for url `u`. -/
def cfgCorrupt : Config :=
  ⟨initialStore, ⟨[("opendap_cache::u", "corrupt")], [], 0⟩⟩

/-- C7 (counterexample): a malformed persisted entry is *not* error-free on
    every read path — `loadFromCache` surfaces the deserialization failure
    in the store's `error` field. -/
theorem C7_counterexample :
    jsonParse ("corrupt") = none ∧
    (loadFromCache ("u") cfgCorrupt).1.store.error
      = some ("SyntaxError: Unexpected token in JSON") ∧
    (loadFromCache ("u") cfgCorrupt).1.store.error ≠ none :=
  ⟨by rfl, by rfl, fun h => Option.noConfusion
    ((by rfl : some ("SyntaxError: Unexpected token in JSON")
        = (loadFromCache ("u") cfgCorrupt).1.store.error).trans h)⟩

/-- C7 (amended): a malformed cache entry is treated as absent, with no
    user-visible error, by `fetchOpendapAscii`'s cache-first read — it logs
    a console warning and proceeds to a fresh network fetch; `loadFromCache`
    instead surfaces the failure in the store's `error` field (and changes
    nothing else). -/
theorem C7_amended (url : String) (cfg : Config) (c : String)
    (hurl : url ≠ "")
    (hc : lsGet cfg.env.ls (cacheKey url) = some c)
    (hbad : jsonParse c = none) :
    foStart url cfg = foProceedToFetch url cfg
      [Effect.getItem (cacheKey url),
       Effect.warn ("SyntaxError: Unexpected token in JSON")] ∧
    (foStart url cfg).cfg.store.error = none ∧
    (foStart url cfg).cfg.store.loading = true ∧
    (foStart url cfg).phase = Phase.awaitFetch cfg.env.nextGen url ∧
    (loadFromCache url cfg).1.store =
      { cfg.store with error := some ("SyntaxError: Unexpected token in JSON") } ∧
    (loadFromCache url cfg).2 = [Effect.getItem (cacheKey url)] := by
  have hstart : foStart url cfg = foProceedToFetch url cfg
      [Effect.getItem (cacheKey url),
       Effect.warn ("SyntaxError: Unexpected token in JSON")] := by
    unfold foStart
    rw [if_neg hurl]
    simp only [hc]
    simp only [foCacheAttempt, hbad]
    rfl
  have hload : (loadFromCache url cfg).1.store =
      { cfg.store with error := some ("SyntaxError: Unexpected token in JSON") } ∧
      (loadFromCache url cfg).2 = [Effect.getItem (cacheKey url)] := by
    unfold loadFromCache
    rw [if_neg hurl]
    simp only [hc, hbad]
    exact ⟨trivial, trivial⟩
  refine ⟨hstart, ?_, ?_, ?_, hload.1, hload.2⟩ <;>
    · rw [hstart]
      unfold foProceedToFetch
      rcases cfg.store.aborter with _ | g <;> rfl

theorem C7_witness :
    ("u" : String) ≠ "" ∧
    lsGet cfgCorrupt.env.ls (cacheKey ("u")) = some ("corrupt") ∧
    jsonParse ("corrupt") = none ∧
    (foStart ("u") cfgCorrupt).cfg.store.error = none :=
  ⟨by decide, by rfl, by rfl,
   (C7_amended ("u") cfgCorrupt ("corrupt") (by decide) (by rfl) (by rfl)).2.1⟩

/-! ## C5 — no first-element drop of the identifier catalog -/

/-- A response whose `id` payload begins with the catalog size 2465. -/
def docId2465 : Str := ("---------\nid[4]\n2465, 10, 11, 12\n").data

/-- C5 (counterexample): when the first parsed element equals the declared
    catalog size 2465, `_parseIdList` keeps it — the claimed drop does not
    happen. -/
theorem C5_counterexample :
    parseIdList docId2465 = [2465, 10, 11, 12] ∧
    ([2465, 10, 11, 12] : List ℤ) ≠ [10, 11, 12] :=
  ⟨by rfl, by decide⟩

/-- C5 (amended): no guard drops a leading catalog-size element anywhere:
    `_parseIdList` returns exactly the parsed integers of the captured `id`
    payload, and the cache-read branch of `fetchTransectIdList` stores the
    persisted `list` member into state unchanged. -/
theorem C5_amended :
    (∀ (cfg : Config) (l : List JVal) (w : Option JVal),
      idListCacheRead (lsGet cfg.env.ls ID_LIST_CACHE_KEY) = some (l, w) →
      cfg.store.idList = [] →
      (fetchTransectIdListStart cfg).cfg.store.idList = l ∧
      (fetchTransectIdListStart cfg).cfg.store.idsFetchedAt = w) ∧
    (∀ ascii : Str,
      parseIdList ascii = (tokenizeNumbers (stripOpendapIndices
        (capturePayloadBlock ascii ("id".data)))).map jsParseIntOfNum) := by
  constructor
  · intro cfg l w hread hempty
    unfold fetchTransectIdListStart
    rw [hempty]
    simp only [List.length_nil, Nat.lt_irrefl, if_false]
    rw [hread]
    exact ⟨rfl, rfl⟩
  · intro ascii
    rfl

/-- A configuration whose persisted identifier list starts with 2465. -/
def cfgIdCache : Config :=
  ⟨initialStore,
   ⟨[("jarkus_id_list_v1", "\x7b\"list\":[2465,10,11],\"when\":5\x7d")], [], 0⟩⟩

theorem C5_witness :
    idListCacheRead (lsGet cfgIdCache.env.ls ID_LIST_CACHE_KEY)
      = some ([JVal.jnum (mkRat 2465 1), JVal.jnum (mkRat 10 1),
               JVal.jnum (mkRat 11 1)], some (JVal.jnum (mkRat 5 1))) ∧
    cfgIdCache.store.idList = [] ∧
    (fetchTransectIdListStart cfgIdCache).cfg.store.idList
      = [JVal.jnum (mkRat 2465 1), JVal.jnum (mkRat 10 1), JVal.jnum (mkRat 11 1)] :=
  ⟨by rfl, rfl,
   ((C5_amended).1 cfgIdCache
     [JVal.jnum (mkRat 2465 1), JVal.jnum (mkRat 10 1), JVal.jnum (mkRat 11 1)]
     (some (JVal.jnum (mkRat 5 1))) (by rfl) rfl).1⟩

/-! ## C9 — time-axis labeling -/

/-- `Math.round` (round half toward positive infinity): `⌊q + 1/2⌋`. -/
def jsRound (q : ℚ) : ℤ :=
  (2 * q.num + (q.den : ℤ)).fdiv (2 * (q.den : ℤ))

/-- C9 (counterexample): for the in-range axis `[1999.5]` the code labels
    with `Math.trunc` (`"1999"`), not with rounding (`"2000"`). -/
theorem C9_counterexample :
    toYearLabels [mkRat 3999 2] = ["1999"] ∧
    toString (jsRound (mkRat 3999 2)) = "2000" ∧
    toYearLabels [mkRat 3999 2] ≠ [toString (jsRound (mkRat 3999 2))] :=
  ⟨by rfl, by rfl, fun h => by
    have h1 : (["1999"] : List String) = ["2000"] :=
      (by rfl : toYearLabels [mkRat 3999 2] = ["1999"]).symm.trans
        (h.trans (by rfl))
    exact absurd h1 (by decide)⟩

theorem le_jsMin_iff (c a b : ℚ) : c ≤ jsMin a b ↔ c ≤ a ∧ c ≤ b := by
  unfold jsMin
  split
  next hab => exact ⟨fun h => ⟨h, h.trans hab⟩, fun h => h.1⟩
  next hab =>
    have hba : b ≤ a := le_of_not_le hab
    exact ⟨fun h => ⟨h.trans hba, h⟩, fun h => h.2⟩

theorem jsMax_le_iff (c a b : ℚ) : jsMax a b ≤ c ↔ a ≤ c ∧ b ≤ c := by
  unfold jsMax
  split
  next hab => exact ⟨fun h => ⟨hab.trans h, h⟩, fun h => h.2⟩
  next hab =>
    have hba : b ≤ a := le_of_not_le hab
    exact ⟨fun h => ⟨h, hba.trans h⟩, fun h => h.1⟩

theorem le_foldl_jsMin_iff (c : ℚ) (l : List ℚ) :
    ∀ v : ℚ, c ≤ l.foldl jsMin v ↔ c ≤ v ∧ ∀ x ∈ l, c ≤ x := by
  induction l with
  | nil => intro v; simp
  | cons a t ih =>
    intro v
    rw [List.foldl_cons, ih, le_jsMin_iff]
    constructor
    · rintro ⟨⟨h1, h2⟩, h3⟩
      exact ⟨h1, fun x hx => by
        rcases List.mem_cons.mp hx with rfl | hx'
        · exact h2
        · exact h3 x hx'⟩
    · rintro ⟨h1, h2⟩
      exact ⟨⟨h1, h2 a (by simp)⟩, fun x hx => h2 x (by simp [hx])⟩

theorem foldl_jsMax_le_iff (c : ℚ) (l : List ℚ) :
    ∀ v : ℚ, l.foldl jsMax v ≤ c ↔ v ≤ c ∧ ∀ x ∈ l, x ≤ c := by
  induction l with
  | nil => intro v; simp
  | cons a t ih =>
    intro v
    rw [List.foldl_cons, ih, jsMax_le_iff]
    constructor
    · rintro ⟨⟨h1, h2⟩, h3⟩
      exact ⟨h1, fun x hx => by
        rcases List.mem_cons.mp hx with rfl | hx'
        · exact h2
        · exact h3 x hx'⟩
    · rintro ⟨h1, h2⟩
      exact ⟨⟨h1, h2 a (by simp)⟩, fun x hx => h2 x (by simp [hx])⟩

/-- C9 (amended): `toYearLabels` preserves length; when every value lies in
    the plausible calendar-year range [1800, 2100] each value is *truncated
    toward zero* (not rounded) and stringified; when some value falls
    outside the range, every value is labeled through the day-offset path:
    milliseconds from the 1970-01-01 UTC epoch, clipped and truncated as by
    ECMA `TimeClip`, and mapped to the calendar year of the resulting UTC
    date. -/
theorem C9_amended (timeVals : List ℚ) (h : timeVals ≠ []) :
    (toYearLabels timeVals).length = timeVals.length ∧
    ((∀ x ∈ timeVals, 1800 ≤ x ∧ x ≤ 2100) →
      toYearLabels timeVals = timeVals.map (fun v => toString (jsTrunc v))) ∧
    ((∃ x ∈ timeVals, x < 1800 ∨ 2100 < x) →
      toYearLabels timeVals = timeVals.map utcYearLabel) := by
  obtain ⟨v, rest, rfl⟩ := List.exists_cons_of_ne_nil h
  show (toYearLabels (v :: rest)).length = (v :: rest).length ∧ _ ∧ _
  simp only [toYearLabels]
  by_cases hin : 1800 ≤ rest.foldl jsMin v ∧ rest.foldl jsMax v ≤ 2100
  · rw [if_pos hin]
    refine ⟨by simp, fun _ => rfl, fun hex => ?_⟩
    obtain ⟨x, hx, hor⟩ := hex
    obtain ⟨hm1, hm2⟩ := (le_foldl_jsMin_iff 1800 rest v).mp hin.1
    obtain ⟨hM1, hM2⟩ := (foldl_jsMax_le_iff 2100 rest v).mp hin.2
    rcases List.mem_cons.mp hx with rfl | hx'
    · rcases hor with h' | h' <;> linarith
    · rcases hor with h' | h' <;>
        [exact absurd (hm2 x hx') (not_le.mpr h');
         exact absurd (hM2 x hx') (not_le.mpr h')]
  · rw [if_neg hin]
    refine ⟨by simp, fun hall => ?_, fun _ => rfl⟩
    refine absurd ⟨?_, ?_⟩ hin
    · exact (le_foldl_jsMin_iff 1800 rest v).mpr
        ⟨(hall v (by simp)).1, fun x hx => (hall x (by simp [hx])).1⟩
    · exact (foldl_jsMax_le_iff 2100 rest v).mpr
        ⟨(hall v (by simp)).2, fun x hx => (hall x (by simp [hx])).2⟩

theorem C9_witness :
    ([mkRat 2010 1, mkRat 16000 1] : List ℚ) ≠ [] ∧
    (toYearLabels [mkRat 2010 1, mkRat 16000 1]).length = 2 ∧
    toYearLabels [mkRat 2010 1, mkRat 16000 1]
      = [utcYearLabel (mkRat 2010 1), utcYearLabel (mkRat 16000 1)] :=
  ⟨List.cons_ne_nil _ _,
   (C9_amended [mkRat 2010 1, mkRat 16000 1] (List.cons_ne_nil _ _)).1,
   (C9_amended [mkRat 2010 1, mkRat 16000 1] (List.cons_ne_nil _ _)).2.2
     ⟨mkRat 16000 1, by simp, Or.inr (by decide)⟩⟩

/-! ## C6 — cancellation of superseded foreground fetches

The scenario: with no cache entry for `url`, invocation A of
`fetchOpendapAscii(url)` runs to its `await fetch` suspension; a second
invocation B for the same slot then runs its synchronous prefix (which
aborts A's controller) to its own suspension. The single-threaded scheduler
then delivers the three pending resumptions — A's settled fetch (which,
being aborted, surfaces as an `AbortError` rejection whatever the network
outcome was), B's response, and B's body text — with A's resumption in any
of its three possible positions. -/

theorem contains_eq_false_of_not_mem {l : List Nat} {a : Nat} (h : a ∉ l) :
    l.contains a = false := by
  rcases hc : l.contains a with _ | _
  · rfl
  · exact absurd (List.elem_iff.mp hc) h

/-- `foStart` on a cache miss goes straight to the network path. -/
theorem foStart_cacheMiss (url : String) (cfg : Config)
    (hurl : url ≠ "") (hcache : lsGet cfg.env.ls (cacheKey url) = none) :
    foStart url cfg = foProceedToFetch url cfg [Effect.getItem (cacheKey url)] := by
  unfold foStart
  rw [if_neg hurl]
  simp only [hcache]

/-- Explicit form of the network-path prefix. -/
theorem foProceedToFetch_spec (url : String) (cfg : Config) (eff : List Effect) :
    foProceedToFetch url cfg eff =
      ⟨⟨{ cfg.store with
            aborter := some cfg.env.nextGen, loading := true, error := none,
            warning := none, chartReady := false, chartData := none, years := [],
            crossShore := [], altitudeByYear := [] },
        ⟨cfg.env.ls, cfg.env.aborted ++ cfg.store.aborter.toList,
         cfg.env.nextGen + 1⟩⟩,
       eff ++ cfg.store.aborter.toList.map Effect.abortSignal
           ++ [Effect.netFetch url (some cfg.env.nextGen)],
       Phase.awaitFetch cfg.env.nextGen url⟩ := by
  unfold foProceedToFetch
  rcases h : cfg.store.aborter with _ | g <;> simp [h, Option.toList]

/-- A resumption of an aborted generation only clears the loading flag. -/
theorem foResumeFetch_aborted (gen : Nat) (url : String) (r : FetchOutcome)
    (cfg : Config) (h : cfg.env.aborted.contains gen = true) :
    foResumeFetch gen url r cfg =
      ⟨⟨{ cfg.store with loading := false }, cfg.env⟩, [], Phase.done⟩ := by
  unfold foResumeFetch
  simp only [h, if_true]

/-- A live successful response just moves on to the body read. -/
theorem foResumeFetch_success (gen : Nat) (url : String) (cfg : Config)
    (h : cfg.env.aborted.contains gen = false) :
    foResumeFetch gen url FetchOutcome.success cfg =
      ⟨cfg, [], Phase.awaitText gen url⟩ := by
  unfold foResumeFetch
  simp only [h, Bool.false_eq_true, if_false]

/-- Explicit form of the successful, under-ceiling text resumption. -/
theorem foResumeText_ok (gen : Nat) (url : String) (text : Str) (now : ℤ)
    (cfg : Config) (r : ChartBundle)
    (hab : cfg.env.aborted.contains gen = false)
    (hp : parseOpendapAscii text = Except.ok r)
    (hs : text.length ≤ MAX_LOCALSTORAGE_CACHE_SIZE) :
    foResumeText gen url text now cfg =
      ⟨⟨{ cfg.store with
            rawText := text, fetchedAt := some (JVal.jnum (now : ℚ)),
            chartData := some r.chartRows, years := r.years,
            crossShore := r.crossShore, altitudeByYear := r.altitudeByYear,
            chartReady := true, loading := false },
        { cfg.env with
            ls := lsSet cfg.env.ls (cacheKey url) (encodeCacheEntry now (String.mk text)) }⟩,
       [Effect.setItem (cacheKey url) (encodeCacheEntry now (String.mk text))],
       Phase.done⟩ := by
  unfold foResumeText
  simp only [hab, Bool.false_eq_true, if_false, hp]
  rw [if_pos hs]

/-- The position of A's resumption among the three deliveries. -/
inductive C6Order where
  | firstEarly : C6Order
  | firstMid : C6Order
  | firstLate : C6Order
deriving Repr, DecidableEq

/-- The configurations reached by the scenario, in order (after A's prefix,
    after B's prefix, then after each of the three resumptions). -/
def c6trace (url : String) (cfg0 : Config) (rA : FetchOutcome) (tB : Str)
    (now : ℤ) (ord : C6Order) : List Config :=
  let s1 := foStart url cfg0
  let gA := cfg0.env.nextGen
  let s2 := foStart url s1.cfg
  let gB := s1.cfg.env.nextGen
  let resA := fun c => (foResumeFetch gA url rA c).cfg
  let resBf := fun c => (foResumeFetch gB url FetchOutcome.success c).cfg
  let resBt := fun c => (foResumeText gB url tB now c).cfg
  match ord with
  | C6Order.firstEarly =>
    let c3 := resA s2.cfg
    let c4 := resBf c3
    let c5 := resBt c4
    [s1.cfg, s2.cfg, c3, c4, c5]
  | C6Order.firstMid =>
    let c3 := resBf s2.cfg
    let c4 := resA c3
    let c5 := resBt c4
    [s1.cfg, s2.cfg, c3, c4, c5]
  | C6Order.firstLate =>
    let c3 := resBf s2.cfg
    let c4 := resBt c3
    let c5 := resA c4
    [s1.cfg, s2.cfg, c3, c4, c5]

/-- The final configuration of the scenario. -/
def c6final (url : String) (cfg0 : Config) (rA : FetchOutcome) (tB : Str)
    (now : ℤ) (ord : C6Order) : Config :=
  ((c6trace url cfg0 rA tB now ord).getLast?).getD cfg0

/-- C6: in the two-invocation scenario, whatever A's network outcome and
    whichever of the three delivery orders occurs, the final state carries
    exactly B's data with no reported error, and at no point of the trace is
    a ready chart anything other than B's parse — A's outcome is never
    applied and never surfaces an error. -/
theorem C6_cancellation (url : String) (cfg0 : Config) (rA : FetchOutcome)
    (tB : Str) (r : ChartBundle) (now : ℤ) (ord : C6Order)
    (hurl : url ≠ "")
    (hcache : lsGet cfg0.env.ls (cacheKey url) = none)
    (hparse : parseOpendapAscii tB = Except.ok r)
    (hsize : tB.length ≤ MAX_LOCALSTORAGE_CACHE_SIZE)
    (habinv : ∀ a ∈ cfg0.env.aborted, a < cfg0.env.nextGen)
    (habort : ∀ a ∈ cfg0.store.aborter.toList, a < cfg0.env.nextGen) :
    ((c6final url cfg0 rA tB now ord).store.rawText = tB ∧
     (c6final url cfg0 rA tB now ord).store.chartData = some r.chartRows ∧
     (c6final url cfg0 rA tB now ord).store.years = r.years ∧
     (c6final url cfg0 rA tB now ord).store.crossShore = r.crossShore ∧
     (c6final url cfg0 rA tB now ord).store.altitudeByYear = r.altitudeByYear ∧
     (c6final url cfg0 rA tB now ord).store.chartReady = true ∧
     (c6final url cfg0 rA tB now ord).store.error = none ∧
     (c6final url cfg0 rA tB now ord).store.warning = none ∧
     (c6final url cfg0 rA tB now ord).store.loading = false) ∧
    (∀ c ∈ c6trace url cfg0 rA tB now ord,
      c.store.error = none ∧
      (c.store.chartReady = true →
        c.store.rawText = tB ∧ c.store.chartData = some r.chartRows)) := by
  have hg : cfg0.env.nextGen = cfg0.env.nextGen := rfl
  -- abbreviations for the two prefix configurations
  let g := cfg0.env.nextGen
  let stA : Store := { cfg0.store with
    aborter := some g, loading := true, error := none, warning := none,
    chartReady := false, chartData := none, years := [], crossShore := [],
    altitudeByYear := [] }
  let envA : Env := ⟨cfg0.env.ls, cfg0.env.aborted ++ cfg0.store.aborter.toList, g + 1⟩
  let stB : Store := { cfg0.store with
    aborter := some (g + 1), loading := true, error := none, warning := none,
    chartReady := false, chartData := none, years := [], crossShore := [],
    altitudeByYear := [] }
  let envB : Env :=
    ⟨cfg0.env.ls, (cfg0.env.aborted ++ cfg0.store.aborter.toList) ++ [g], g + 2⟩
  have h1 : (foStart url cfg0).cfg = ⟨stA, envA⟩ := by
    rw [foStart_cacheMiss _ _ hurl hcache, foProceedToFetch_spec]
  have h2 : (foStart url ⟨stA, envA⟩).cfg = ⟨stB, envB⟩ := by
    rw [foStart_cacheMiss url ⟨stA, envA⟩ hurl
          (show lsGet (Config.mk stA envA).env.ls (cacheKey url) = none from hcache),
        foProceedToFetch_spec]
    rfl
  have hcA : envB.aborted.contains g = true :=
    List.elem_iff.mpr (List.mem_append_right _ (by simp))
  have hmemB : (g + 1) ∉ envB.aborted := by
    intro hmem
    rcases List.mem_append.mp hmem with h' | h'
    · rcases List.mem_append.mp h' with h'' | h''
      · exact absurd (habinv _ h'') (by omega)
      · exact absurd (habort _ h'') (by omega)
    · simp only [List.mem_singleton] at h'
      omega
  have hcB : envB.aborted.contains (g + 1) = false :=
    contains_eq_false_of_not_mem hmemB
  -- the three resumption shapes, at an arbitrary store over environment envB
  have hAbortStep : ∀ (st : Store) (env' : Env), env'.aborted = envB.aborted →
      (foResumeFetch g url rA ⟨st, env'⟩).cfg =
        ⟨{ st with loading := false }, env'⟩ := fun st env' henv => by
    rw [foResumeFetch_aborted g url rA ⟨st, env'⟩ (by rw [show (Config.mk st env').env.aborted = envB.aborted from henv]; exact hcA)]
  have hBfStep : ∀ st : Store, (foResumeFetch (g + 1) url FetchOutcome.success ⟨st, envB⟩).cfg
      = ⟨st, envB⟩ := fun st => by
    rw [foResumeFetch_success (g + 1) url ⟨st, envB⟩ hcB]
  have hBtStep : ∀ st : Store, (foResumeText (g + 1) url tB now ⟨st, envB⟩).cfg =
      ⟨{ st with
          rawText := tB, fetchedAt := some (JVal.jnum (now : ℚ)),
          chartData := some r.chartRows, years := r.years,
          crossShore := r.crossShore, altitudeByYear := r.altitudeByYear,
          chartReady := true, loading := false },
        { envB with
            ls := lsSet envB.ls (cacheKey url) (encodeCacheEntry now (String.mk tB)) }⟩ :=
    fun st => by
    rw [foResumeText_ok (g + 1) url tB now ⟨st, envB⟩ r hcB hparse hsize]
  rcases ord with _ | _ | _ <;>
  · constructor
    · simp only [c6final, c6trace, h1, h2, hAbortStep, hBfStep, hBtStep]
      exact ⟨rfl, rfl, rfl, rfl, rfl, rfl, rfl, rfl, rfl⟩
    · intro c hc
      simp only [c6trace, h1, h2, hAbortStep, hBfStep, hBtStep,
        List.mem_cons, List.not_mem_nil, or_false] at hc
      rcases hc with rfl | rfl | rfl | rfl | rfl <;>
        exact ⟨rfl, fun hready => by
          first
          | exact ⟨rfl, rfl⟩
          | exact absurd hready (by simp)⟩

set_option maxRecDepth 1000000 in
theorem C6_witness :
    parseOpendapAscii docA = Except.ok docABundle ∧
    (c6final ("u") cfg0 (FetchOutcome.netErr ("boom")) docA 0
        C6Order.firstLate).store.rawText = docA ∧
    (c6final ("u") cfg0 (FetchOutcome.netErr ("boom")) docA 0
        C6Order.firstLate).store.error = none :=
  ⟨by rfl,
   (C6_cancellation ("u") cfg0 (FetchOutcome.netErr ("boom")) docA docABundle 0
     C6Order.firstLate (by decide) (by rfl) (by rfl) (by decide)
     (by simp [cfg0]) (by simp [cfg0, initialStore])).1.1,
   (C6_cancellation ("u") cfg0 (FetchOutcome.netErr ("boom")) docA docABundle 0
     C6Order.firstLate (by decide) (by rfl) (by rfl) (by decide)
     (by simp [cfg0]) (by simp [cfg0, initialStore])).1.2.2.2.2.2.2.1⟩

/-! ## C3 — text before the dashed separator never contributes to a parse -/

/-- Scenario B document: the preamble itself mentions id[2465] (and a bare
    2465 line) before the dashed separator; the id payload after it holds
    the values 10 to 14. -/
def docPreamble2465 : Str :=
  ("Dataset metadata\nid[2465]\n2465\n----------\nid[5]\n10, 11, 12, 13, 14\n").data

/-- The CRLF normalization is the identity on carriage-return-free text. -/
theorem normalizeCrlf_of_no_cr (l : Str) (h : '\r' ∉ l) : normalizeCrlf l = l := by
  induction l with
  | nil => rfl
  | cons c t ih =>
    have hc : c ≠ '\r' := by
      intro e
      subst e
      exact h (List.mem_cons_self _ _)
    have ht : '\r' ∉ t := fun m => h (List.mem_cons_of_mem _ m)
    rw [normalizeCrlf.eq_def]
    split
    · rename_i u heq
      injection heq with h1 h2
      exact absurd h1 hc
    · rename_i c2 t2 heq
      injection heq with h1 h2
      rw [← h1, ← h2, ih ht]
    · rename_i heq
      exact absurd heq (List.cons_ne_nil c t)

/-- The head of a nonempty `dropWhile` residue fails the predicate. -/
theorem dropWhile_head_false {α : Type} (q : α → Bool) :
    ∀ (l : List α) (d : α) (rest : List α),
    List.dropWhile q l = d :: rest → q d = false := by
  intro l
  induction l with
  | nil => intro d rest h; simp at h
  | cons a t ih =>
    intro d rest h
    rw [List.dropWhile_cons] at h
    split at h
    · exact ih d rest h
    · rename_i ha
      injection h with h1 _
      rw [← h1]
      simpa using ha

/-- `takeWhile` ignores an appended tail on which it takes nothing. -/
theorem takeWhile_append_eq_left {α : Type} (q : α → Bool) (a b : List α)
    (hb : List.takeWhile q b = []) :
    List.takeWhile q (a ++ b) = List.takeWhile q a := by
  rw [List.takeWhile_append]
  split
  · rename_i hlen
    rw [hb, List.append_nil]
    exact ((List.takeWhile_prefix q).eq_of_length hlen).symm
  · rfl

/-- A successful anchored match settles the separator search immediately. -/
theorem findSepAux_of_matchSep (f : ℕ) (hf : 0 < f) (s r : Str)
    (h : matchSep s = some r) : findSepAux f s = some r := by
  cases f with
  | zero => exact absurd hf (by omega)
  | succ f => simp only [findSepAux, h]

/-- At an anchor that sees only whitespace before the dash run, the separator
    pattern matches and its trailing piece backtracks to just before the
    newline that ends the dashed line. -/
theorem matchSep_at_dashes (w : Str) (hw : ∀ x ∈ w, isJsSpace x = true)
    (k : ℕ) (hk : 5 ≤ k) (c : Char) (hc : isJsSpace c = false) (cs : Str) :
    matchSep (w ++ (List.replicate k '-' ++ '\n' :: c :: cs))
      = some ('\n' :: c :: cs) := by
  have hdash : ∀ x ∈ List.replicate k '-', (fun ch => decide (ch = '-')) x = true := by
    intro x hx
    rw [List.eq_of_mem_replicate hx]
    decide
  have hR : List.dropWhile isJsSpace (List.replicate k '-' ++ '\n' :: c :: cs)
      = List.replicate k '-' ++ '\n' :: c :: cs := by
    obtain ⟨m, rfl⟩ : ∃ m, k = (m + 4) + 1 := ⟨k - 5, by omega⟩
    rw [List.replicate_succ, List.cons_append,
      List.dropWhile_cons_of_neg (by decide)]
  have hlast : dropBeforeLastNl ['\n'] = some ['\n'] := rfl
  unfold matchSep consumeTrailingToEol
  simp only [List.dropWhile_append_of_pos hw, hR,
    List.takeWhile_append_of_pos hdash, List.dropWhile_append_of_pos hdash,
    List.takeWhile_cons_of_neg (p := fun ch => decide (ch = '-')) (a := '\n') (by decide),
    List.dropWhile_cons_of_neg (p := fun ch => decide (ch = '-')) (a := '\n') (by decide),
    List.append_nil, List.length_replicate]
  rw [if_neg (by omega : ¬ k < 5)]
  simp only [List.takeWhile_cons_of_pos (show isJsSpace '\n' = true by decide),
    List.dropWhile_cons_of_pos (show isJsSpace '\n' = true by decide),
    List.takeWhile_cons_of_neg (show ¬ (isJsSpace c = true) by simp [hc]),
    List.dropWhile_cons_of_neg (show ¬ (isJsSpace c = true) by simp [hc]),
    List.takeWhile_nil, List.isEmpty_cons, Bool.false_eq_true, if_false,
    hlast, List.singleton_append]

/-- At an anchor whose first visible character lies inside the preamble, the
    separator pattern cannot match: the preamble holds no five-dash run. -/
theorem matchSep_none_in_preamble (p : Str)
    (hnf : ¬ (List.replicate 5 '-' <:+: p))
    (d : Char) (rest : Str) (hd : List.dropWhile isJsSpace p = d :: rest)
    (y : Str) (hy : List.takeWhile (fun ch => ch = '-') y = []) :
    matchSep (p ++ y) = none := by
  have h1 : List.dropWhile isJsSpace (p ++ y) = (d :: rest) ++ y := by
    rw [List.dropWhile_append, hd]
    rfl
  have hrunlt : (List.takeWhile (fun ch => ch = '-') (d :: rest)).length < 5 := by
    by_contra hge
    apply hnf
    have hmem : ∀ x ∈ List.takeWhile (fun ch => ch = '-') (d :: rest), x = '-' := by
      intro x hx
      have h0 := List.mem_takeWhile_imp hx
      simpa using h0
    have hrepl := List.eq_replicate_of_mem hmem
    have h5 : List.replicate 5 '-'
        <+: List.takeWhile (fun ch => ch = '-') (d :: rest) := by
      refine ⟨List.replicate
        ((List.takeWhile (fun ch => ch = '-') (d :: rest)).length - 5) '-', ?_⟩
      rw [← List.replicate_add]
      conv_rhs => rw [hrepl]
      congr 1
      omega
    have h6 : List.replicate 5 '-' <+: (d :: rest) :=
      h5.trans (List.takeWhile_prefix _)
    have h7 : (d :: rest) <:+ p := hd ▸ List.dropWhile_suffix isJsSpace
    exact h6.isInfix.trans h7.isInfix
  unfold matchSep
  simp only [h1, takeWhile_append_eq_left _ _ _ hy]
  rw [if_pos hrunlt]

/-- The multiline separator search over preamble ++ separator ++ payload
    lands exactly at the newline before the payload: anchors inside the
    preamble fail (no five-dash run there) and the delimiter anchor matches. -/
theorem findSepAux_skips : ∀ (f : ℕ) (p : Str), p.length < f →
    ¬ (List.replicate 5 '-' <:+: p) → ∀ (k : ℕ), 5 ≤ k → ∀ (c : Char),
    isJsSpace c = false → ∀ (cs : Str),
    findSepAux f (p ++ '\n' :: (List.replicate k '-' ++ '\n' :: c :: cs))
      = some ('\n' :: c :: cs) := by
  intro f
  induction f with
  | zero => intro p hp; exact absurd hp (Nat.not_lt_zero _)
  | succ f ih =>
    intro p hp hnf k hk c hc cs
    by_cases hall : ∀ x ∈ p, isJsSpace x = true
    · have he : p ++ '\n' :: (List.replicate k '-' ++ '\n' :: c :: cs)
          = (p ++ ['\n']) ++ (List.replicate k '-' ++ '\n' :: c :: cs) := by
        rw [List.append_assoc]
        rfl
      have hw : ∀ x ∈ p ++ ['\n'], isJsSpace x = true := by
        intro x hx
        rcases List.mem_append.1 hx with h | h
        · exact hall x h
        · rw [List.mem_singleton.1 h]
          decide
      have hm := matchSep_at_dashes (p ++ ['\n']) hw k hk c hc cs
      rw [← he] at hm
      exact findSepAux_of_matchSep (f + 1) (Nat.succ_pos f) _ _ hm
    · have hne : List.dropWhile isJsSpace p ≠ [] := by
        rw [Ne, List.dropWhile_eq_nil_iff]
        exact hall
      obtain ⟨d, rest, hd⟩ : ∃ d rest, List.dropWhile isJsSpace p = d :: rest := by
        cases hq2 : List.dropWhile isJsSpace p with
        | nil => exact absurd hq2 hne
        | cons d rest => exact ⟨d, rest, rfl⟩
      have hpnil : p ≠ [] := by
        intro h0
        rw [h0] at hd
        exact List.noConfusion hd
      have hmn : matchSep (p ++ '\n' :: (List.replicate k '-' ++ '\n' :: c :: cs))
          = none :=
        matchSep_none_in_preamble p hnf d rest hd _
          (List.takeWhile_cons_of_neg (p := fun ch => decide (ch = '-')) (by decide))
      simp only [findSepAux, hmn]
      cases hq : List.dropWhile (fun ch => ch ≠ '\n') p with
      | nil =>
        have hstep : List.dropWhile (fun ch => ch ≠ '\n')
            (p ++ '\n' :: (List.replicate k '-' ++ '\n' :: c :: cs))
            = '\n' :: (List.replicate k '-' ++ '\n' :: c :: cs) := by
          rw [List.dropWhile_append, hq,
            List.dropWhile_cons_of_neg (p := fun ch => decide (ch ≠ '\n')) (by decide)]
          rfl
        rw [hstep]
        show findSepAux f (List.replicate k '-' ++ '\n' :: c :: cs)
            = some ('\n' :: c :: cs)
        have hm2 : matchSep (List.replicate k '-' ++ '\n' :: c :: cs)
            = some ('\n' :: c :: cs) := by
          have h0 := matchSep_at_dashes [] (by intro x hx; cases hx) k hk c hc cs
          simpa using h0
        have hf : 0 < f := by
          have h1 : 1 ≤ p.length := by
            cases p with
            | nil => exact absurd rfl hpnil
            | cons a t => simp
          omega
        exact findSepAux_of_matchSep f hf _ _ hm2
      | cons d2 b =>
        have hd2 : d2 = '\n' := by
          have h0 := dropWhile_head_false _ p d2 b hq
          simpa using h0
        subst hd2
        have hstep : List.dropWhile (fun ch => ch ≠ '\n')
            (p ++ '\n' :: (List.replicate k '-' ++ '\n' :: c :: cs))
            = '\n' :: (b ++ '\n' :: (List.replicate k '-' ++ '\n' :: c :: cs)) := by
          rw [List.dropWhile_append, hq]
          rfl
        rw [hstep]
        show findSepAux f (b ++ '\n' :: (List.replicate k '-' ++ '\n' :: c :: cs))
            = some ('\n' :: c :: cs)
        have hsuf : ('\n' :: b) <:+ p := by
          rw [← hq]
          exact List.dropWhile_suffix _
        have hblen : b.length < f := by
          have h2 := hsuf.length_le
          simp only [List.length_cons] at h2
          omega
        have hbnf : ¬ (List.replicate 5 '-' <:+: b) := fun hinf =>
          hnf (hinf.trans ((List.suffix_cons '\n' b).trans hsuf).isInfix)
        exact ih b hblen hbnf k hk c hc cs

/-- `findSep` on preamble ++ separator line ++ payload returns exactly the
    newline-led payload, whatever the preamble. -/
theorem findSep_skips_preamble (p : Str)
    (hnf : ¬ (List.replicate 5 '-' <:+: p))
    (k : ℕ) (hk : 5 ≤ k) (c : Char) (hc : isJsSpace c = false) (cs : Str) :
    findSep (p ++ '\n' :: (List.replicate k '-' ++ '\n' :: c :: cs))
      = some ('\n' :: c :: cs) := by
  refine findSepAux_skips _ p ?_ hnf k hk c hc cs
  simp only [List.length_append, List.length_cons]
  omega

set_option maxRecDepth 1000000 in
/-- C3 (confirmed): text before the dashed separator never contributes to a
    parsed result. (1) On every document made of a preamble (carriage-return
    free, holding no five-dash run), a newline, a line of five or more
    dashes, a newline and a payload starting with a non-space character, the
    payload extraction coincides with extraction over the post-separator
    text alone, whatever the preamble says. (2) When no separator line
    matches, the whole text is searched. (3) Scenario B: a preamble
    mentioning id[2465] before the delimiter contributes nothing — the
    identifier list is exactly the post-delimiter payload, without 2465. -/
theorem C3_preamble_ignored :
    (∀ (pre : Str) (k : ℕ) (c : Char) (cs v : Str),
        '\r' ∉ pre → ¬ (List.replicate 5 '-' <:+: pre) → 5 ≤ k →
        isJsSpace c = false → '\r' ∉ cs →
        capturePayloadBlock
            (pre ++ '\n' :: (List.replicate k '-' ++ '\n' :: c :: cs)) v
          = captureFromBase ('\n' :: c :: cs) v) ∧
    (∀ (ascii v : Str), '\r' ∉ ascii → findSep ascii = none →
        capturePayloadBlock ascii v = captureFromBase ascii v) ∧
    parseIdList docPreamble2465 = [10, 11, 12, 13, 14] ∧
    ¬ ((2465 : ℤ) ∈ parseIdList docPreamble2465) := by
  refine ⟨?_, ?_, ?_, ?_⟩
  · intro pre k c cs v hr hnf hk hc hrcs
    have hfull : '\r' ∉ pre ++ '\n' :: (List.replicate k '-' ++ '\n' :: c :: cs) := by
      intro hm
      rcases List.mem_append.1 hm with h | h
      · exact hr h
      · rcases List.mem_cons.1 h with h | h
        · exact absurd h (by decide)
        · rcases List.mem_append.1 h with h | h
          · exact absurd (List.eq_of_mem_replicate h) (by decide)
          · rcases List.mem_cons.1 h with h | h
            · exact absurd h (by decide)
            · rcases List.mem_cons.1 h with h | h
              · rw [← h] at hc
                exact absurd hc (by decide)
              · exact hrcs h
    have hnorm := normalizeCrlf_of_no_cr _ hfull
    have hsep := findSep_skips_preamble pre hnf k hk c hc cs
    have hne : (pre ++ '\n' :: (List.replicate k '-' ++ '\n' :: c :: cs)).isEmpty
        = false := by
      cases pre <;> rfl
    unfold capturePayloadBlock
    rw [hne]
    simp only [Bool.false_eq_true, if_false, hnorm, hsep]
  · intro ascii v hr hfind
    cases ascii with
    | nil =>
      cases v with
      | nil => rfl
      | cons a t => rfl
    | cons a t =>
      have hnorm := normalizeCrlf_of_no_cr _ hr
      unfold capturePayloadBlock
      simp only [List.isEmpty_cons, Bool.false_eq_true, if_false, hnorm]
      rw [hfind]
  · rfl
  · rw [show parseIdList docPreamble2465 = [10, 11, 12, 13, 14] from rfl]
    decide

/-- C3 witness: the preamble-independence law applied at a concrete document
    with preamble AB, a six-dash separator line and an id payload. -/
theorem C3_witness :
    capturePayloadBlock
        (("AB").data ++ '\n' ::
          (List.replicate 6 '-' ++ '\n' :: 'i' :: ("d[3]\n7, 8, 9\n").data))
        (("id").data)
      = captureFromBase ('\n' :: 'i' :: ("d[3]\n7, 8, 9\n").data) (("id").data) :=
  C3_preamble_ignored.1 (("AB").data) 6 'i' (("d[3]\n7, 8, 9\n").data)
    (("id").data) (by decide) (by decide) (by decide) (by decide) (by decide)

end CoastViewer
